import Mathlib

/-!
# Portfolio page behaviour layer (`js/script.js`)

A shallow embedding of the client-side script: the pieces of DOM state the
script reads and writes are record fields, every method is a function on
those records, and event listeners are composed in the order the browser
runs them (target listeners first, then the listeners on `document`).

Conventions.
* `offsetTop`, `offsetHeight` and `pageYOffset` are integers (CSS pixels).
* A `classList` that only ever holds the class `active` for the purposes of
  the script is a `Bool`.
* `document.querySelector` belongs to the browser and is a parameter of the
  model: what it resolves `.nav-link[href="#id"]` to is fixed only for ids
  free of the characters that end or escape the quoted selector string, and
  it may throw a `SyntaxError`.
-/

namespace Portfolio

/-! ## Navigation -/

/-- An exception thrown by the script or by a DOM call it makes. -/
inductive JsError where
  | typeError (message : String)
  | syntaxError (message : String)
  deriving DecidableEq, Repr

/-- A `section[id]` element: its `id` attribute, `offsetTop` and `offsetHeight`. -/
structure Section where
  id : String
  offsetTop : Int
  offsetHeight : Int
  deriving DecidableEq, Repr

/-- A `.nav-link` element: its `href` attribute and whether its class list
holds `active`. -/
structure NavLink where
  href : String
  active : Bool
  deriving DecidableEq, Repr

/-- `link.classList.remove('active')`. -/
def NavLink.removeActive (l : NavLink) : NavLink := { l with active := false }

/-- `navLinks.forEach(link => link.classList.remove('active'))`. -/
def removeActiveAll (links : List NavLink) : List NavLink :=
  links.map NavLink.removeActive

/-- The link list with the class added to the first link, in document order,
whose `href` attribute is `href`; unchanged when no link carries it. -/
def addActiveFirst (href : String) : List NavLink → List NavLink
  | [] => []
  | l :: ls =>
    if l.href = href then { l with active := true } :: ls
    else l :: addActiveFirst href ls

/-- The position, in document order, of the first link whose `href`
attribute is `href`. -/
def firstWithHref (href : String) : List NavLink → Option Nat
  | [] => none
  | l :: ls => if l.href = href then some 0 else (firstWithHref href ls).map (· + 1)

/-- The browser's answer to line 122,
`document.querySelector(.nav-link[href="#<id>"])`, for a section id and the
links as they are: the position of the element found among the `.nav-link`
elements (a position past the last link stands for an element that is not
one of them), `none` for `null`, or the `SyntaxError` thrown for a selector
that does not parse. -/
abbrev NavLinkQuery := String → List NavLink → Except JsError (Option Nat)

/-- Whether an id, put between the quotes of `[href="#<id>"]`, is read back
as itself: it holds no double quote, no backslash, no line break (line feed,
carriage return, form feed) and no NUL. -/
def selectorSafe (id : String) : Bool :=
  id.data.all (fun c =>
    c.toNat ≠ 34 ∧ c.toNat ≠ 92 ∧ c.toNat ≠ 10 ∧ c.toNat ≠ 13 ∧ c.toNat ≠ 12 ∧ c.toNat ≠ 0)

/-- What every browser does on a selector-safe id: the selector matches the
links whose `href` attribute is `"#" ++ id`, and `querySelector` returns the
first of them. -/
def NavLinkQuery.Conforms (query : NavLinkQuery) : Prop :=
  ∀ id links, selectorSafe id = true →
    query id links = .ok (firstWithHref ("#" ++ id) links)

/-- The selector engine that compares `href` with `"#" ++ id` for every id. -/
def exactQuery : NavLinkQuery :=
  fun id links => .ok (firstWithHref ("#" ++ id) links)

/-- A conforming selector engine that also answers two ids that are not
selector-safe the way the browsers do: in `a\62` the backslash starts the
escape of the letter `b`, so the selector asks for the `href` `#ab`; an id
ending in a double quote leaves a selector that does not parse. -/
def sampleBrowserQuery : NavLinkQuery :=
  fun id links =>
    if id = "a\\62" then .ok (firstWithHref "#ab" links)
    else if id = "a\"" then .error (.syntaxError "not a valid selector")
    else exactQuery id links

/-- `element.classList.add('active')` on the link at a position. -/
def markAt : Nat → List NavLink → List NavLink
  | _, [] => []
  | 0, l :: ls => { l with active := true } :: ls
  | i + 1, l :: ls => l :: markAt i ls

/-- `navLink?.classList.add('active')` (line 126). -/
def markFound (navLink : Option Nat) (links : List NavLink) : List NavLink :=
  match navLink with
  | none => links
  | some i => markAt i links

/-- The test of line 124: `scrollPos >= top && scrollPos < bottom` with
`bottom = top + section.offsetHeight`. -/
def Section.contains (s : Section) (scrollPos : Int) : Prop :=
  scrollPos ≥ s.offsetTop ∧ scrollPos < s.offsetTop + s.offsetHeight

instance (s : Section) (scrollPos : Int) : Decidable (s.contains scrollPos) := by
  unfold Section.contains; infer_instance

/-- The links as a run of `setActiveSection` leaves them, and the exception
that ended it, if any. -/
structure Marked where
  links : List NavLink
  error : Option JsError
  deriving DecidableEq, Repr

/-- The body of the `sections.forEach` callback of `setActiveSection`
(lines 119-127) for one section: the link is looked up first (line 122),
whether or not the section contains the position, and a throw there leaves
the links as they are. -/
def sectionStep (query : NavLinkQuery) (scrollPos : Int) (links : List NavLink)
    (s : Section) : Marked :=
  match query s.id links with
  | .error e => { links := links, error := some e }
  | .ok navLink =>
    if s.contains scrollPos then
      { links := markFound navLink (removeActiveAll links), error := none }
    else { links := links, error := none }

/-- The loop `sections.forEach(...)` of lines 118-128: the sections are
visited in document order, and an exception thrown for one of them ends the
loop with the links as the sections before it left them. -/
def forEachSection (query : NavLinkQuery) (scrollPos : Int) :
    List Section → List NavLink → Marked
  | [], links => { links := links, error := none }
  | s :: rest, links =>
    match (sectionStep query scrollPos links s).error with
    | some e => { links := (sectionStep query scrollPos links s).links, error := some e }
    | none => forEachSection query scrollPos rest (sectionStep query scrollPos links s).links

/-- `Navigation.setActiveSection` (lines 114-129): `scrollPos` is
`window.pageYOffset + 100`. -/
def setActiveSection (query : NavLinkQuery) (sections : List Section)
    (links : List NavLink) (pageYOffset : Int) : Marked :=
  forEachSection query (pageYOffset + 100) sections links

/-- The links whose class list holds `active`. -/
def activeLinks (links : List NavLink) : List NavLink :=
  links.filter (fun l => l.active)

/-- The sections whose bounds contain the position, in document order. -/
def matching (sections : List Section) (scrollPos : Int) : List Section :=
  sections.filter (fun s => decide (s.contains scrollPos))

/-- In the spec's words: the first section, in document order, whose bounds
contain the position. -/
def firstMatching (sections : List Section) (scrollPos : Int) : Option Section :=
  (matching sections scrollPos).head?

/-- The last section, in document order, whose bounds contain the position. -/
def lastMatching (sections : List Section) (scrollPos : Int) : Option Section :=
  (matching sections scrollPos).getLast?

/-! ## Markup rendered into the modal -/

/-- A DOM node as produced by parsing markup: character data, or an element
with its tag, class list, remaining attributes and children. Text nodes
holding only the template's indentation are left out, and the text of a
label is taken without the indentation around it. -/
inductive Html where
  | text (data : String)
  | elem (tag : String) (classes : List String) (attrs : List (String × String))
      (children : List Html)
  deriving Repr

mutual
/-- `node.textContent`. -/
def Html.textContent : Html → String
  | .text s => s
  | .elem _ _ _ cs => textContentList cs
/-- Concatenated `textContent` of a list of sibling nodes. -/
def textContentList : List Html → String
  | [] => ""
  | h :: t => h.textContent ++ textContentList t
end

mutual
/-- The node itself and its descendants carrying class `c`, in document order
(`getElementsByClassName`). -/
def Html.byClass (c : String) : Html → List Html
  | .text _ => []
  | .elem t cl as cs =>
    if c ∈ cl then Html.elem t cl as cs :: byClassList c cs else byClassList c cs
/-- `byClass` over a list of sibling nodes. -/
def byClassList (c : String) : List Html → List Html
  | [] => []
  | h :: t => h.byClass c ++ byClassList c t
end

mutual
/-- The node itself and its descendants with tag `g`, in document order
(`getElementsByTagName`). -/
def Html.byTag (g : String) : Html → List Html
  | .text _ => []
  | .elem t cl as cs =>
    if g = t then Html.elem t cl as cs :: byTagList g cs else byTagList g cs
/-- `byTag` over a list of sibling nodes. -/
def byTagList (g : String) : List Html → List Html
  | [] => []
  | h :: t => h.byTag g ++ byTagList g t
end

/-- `element.getAttribute(name)` for an attribute other than `class`. -/
def Html.getAttribute (name : String) : Html → Option String
  | .text _ => none
  | .elem _ _ as _ => (as.find? (fun a => a.1 = name)).map (fun a => a.2)

/-- `element.children`. -/
def Html.children : Html → List Html
  | .text _ => []
  | .elem _ _ _ cs => cs

/-! ## ProjectModal -/

/-- One entry of `ProjectModal.projectData` (lines 188-243). -/
structure ProjectRecord where
  title : String
  description : String
  image : String
  technologies : List String
  features : List String
  challenges : String
  results : String
  liveUrl : String
  githubUrl : String
  deriving Repr

/-- The record stored under key `1` (lines 189-206). -/
def project1 : ProjectRecord where
  title := "E-commerce Completo"
  description := "Plataforma de e-commerce desenvolvida com React e Node.js, incluindo carrinho de compras, sistema de pagamento e painel administrativo."
  image := "images/project1-detail.jpg"
  technologies := ["React", "Node.js", "MongoDB", "Stripe", "JWT", "Socket.io"]
  features := [
    "Autenticação segura com JWT",
    "Carrinho de compras em tempo real",
    "Sistema de pagamento integrado",
    "Painel administrativo completo",
    "Notificações push",
    "Sistema de reviews e avaliações"]
  challenges := "O principal desafio foi implementar um sistema de carrinho em tempo real que sincronizasse entre diferentes dispositivos do mesmo usuário."
  results := "Aumento de 40% na conversão de vendas e 60% de redução no tempo de checkout."
  liveUrl := "https://exemplo-ecommerce.com"
  githubUrl := "https://github.com/usuario/ecommerce"

/-- The record stored under key `2` (lines 207-224). -/
def project2 : ProjectRecord where
  title := "Dashboard Analytics"
  description := "Dashboard interativo para análise de dados empresariais com gráficos dinâmicos e relatórios em tempo real."
  image := "images/project2-detail.jpg"
  technologies := ["Vue.js", "Laravel", "MySQL", "Chart.js", "Redis", "Docker"]
  features := [
    "Gráficos interativos em tempo real",
    "Sistema de filtros avançados",
    "Exportação de relatórios em PDF",
    "Notificações automáticas",
    "Interface responsiva",
    "Cache inteligente"]
  challenges := "Otimizar a performance para lidar com grandes volumes de dados sem comprometer a experiência do usuário."
  results := "Redução de 70% no tempo de geração de relatórios e aumento de 50% na produtividade da equipe."
  liveUrl := "https://exemplo-dashboard.com"
  githubUrl := "https://github.com/usuario/dashboard"

/-- The record stored under key `3` (lines 225-242). -/
def project3 : ProjectRecord where
  title := "App de Gestão de Tarefas"
  description := "Aplicação para gestão de projetos e tarefas com funcionalidades colaborativas e integração com calendário."
  image := "images/project3-detail.jpg"
  technologies := ["Angular", "Express", "PostgreSQL", "TypeScript", "WebRTC", "PWA"]
  features := [
    "Gerenciamento de projetos e tarefas",
    "Colaboração em tempo real",
    "Integração com calendário",
    "Notificações push",
    "Modo offline (PWA)",
    "Sistema de comentários"]
  challenges := "Implementar colaboração em tempo real com sincronização eficiente entre múltiplos usuários."
  results := "Melhoria de 85% na organização de equipes e 45% de aumento na conclusão de projetos no prazo."
  liveUrl := "https://exemplo-tasks.com"
  githubUrl := "https://github.com/usuario/task-manager"

/-- The own properties of the object literal `projectData`, by property key. -/
def projectData : List (String × ProjectRecord) :=
  [("1", project1), ("2", project2), ("3", project3)]

/-- The property names an object literal inherits from `Object.prototype`;
each of them resolves to a function, or to the prototype object itself for
`__proto__`, all of which are truthy and none of which has a `technologies`
property. -/
def objectPrototypeKeys : List String :=
  ["constructor", "__defineGetter__", "__defineSetter__", "hasOwnProperty",
   "__lookupGetter__", "__lookupSetter__", "isPrototypeOf", "propertyIsEnumerable",
   "toString", "valueOf", "__proto__", "toLocaleString"]

/-- A project id as `openModal` receives it: a number (from
`portfolioUtils.openProject`) or a string (a `data-project` attribute). -/
inductive ProjectId where
  | num (n : Int)
  | str (s : String)
  deriving DecidableEq, Repr

/-- The property key the id is converted to by `this.projectData[projectId]`. -/
def ProjectId.toPropertyKey : ProjectId → String
  | .num n => toString n
  | .str s => s

/-- What `this.projectData[projectId]` evaluates to. -/
inductive Lookup where
  | own (project : ProjectRecord)
  | inherited
  | undefined
  deriving Repr

/-- Property lookup on `projectData`: own properties first, then the
prototype chain. -/
def projectDataGet (key : String) : Lookup :=
  match projectData.lookup key with
  | some p => .own p
  | none => if key ∈ objectPrototypeKeys then .inherited else .undefined

/-- Whether a string is free of the characters markup gives a meaning to
(`<`, `&` and the double quote): such a string, interpolated into markup as
element content or as a quoted attribute value, parses back to itself. -/
def plainText (s : String) : Bool :=
  s.data.all (fun c => c.toNat ≠ 60 ∧ c.toNat ≠ 38 ∧ c.toNat ≠ 34)

/-- Whether every field of a record is plain text. -/
def ProjectRecord.plain (p : ProjectRecord) : Bool :=
  plainText p.title && plainText p.description && plainText p.image &&
  p.technologies.all plainText && p.features.all plainText &&
  plainText p.challenges && plainText p.results &&
  plainText p.liveUrl && plainText p.githubUrl

/-- An element carrying only classes and children. -/
def el (tag : String) (classes : List String) (children : List Html) : Html :=
  .elem tag classes [] children

/-- The markup assigned to `modalBody.innerHTML` (lines 283-329), as the node
list it parses to. -/
def renderDetail (project : ProjectRecord) : List Html :=
  [el "div" ["project-detail"] [
    el "div" ["project-detail-header"] [
      .elem "img" ["project-detail-image"]
        [("src", project.image), ("alt", project.title)] [],
      el "div" ["project-detail-info"] [
        el "h2" ["project-detail-title"] [.text project.title],
        el "p" ["project-detail-description"] [.text project.description],
        el "div" ["project-detail-links"] [
          .elem "a" ["btn", "btn-primary"]
            [("href", project.liveUrl), ("target", "_blank")]
            [el "i" ["fas", "fa-external-link-alt"] [], .text "Ver Site"],
          .elem "a" ["btn", "btn-secondary"]
            [("href", project.githubUrl), ("target", "_blank")]
            [el "i" ["fab", "fa-github"] [], .text "Código"]]]],
    el "div" ["project-detail-content"] [
      el "div" ["detail-section"] [
        el "h3" [] [.text "Tecnologias Utilizadas"],
        el "div" ["tech-tags"]
          (project.technologies.map (fun tech => el "span" ["tech-tag"] [.text tech]))],
      el "div" ["detail-section"] [
        el "h3" [] [.text "Principais Funcionalidades"],
        el "ul" ["features-list"]
          (project.features.map (fun feature => el "li" [] [.text feature]))],
      el "div" ["detail-section"] [
        el "h3" [] [.text "Desafios Técnicos"],
        el "p" [] [.text project.challenges]],
      el "div" ["detail-section"] [
        el "h3" [] [.text "Resultados Alcançados"],
        el "p" [] [.text project.results]]]]]

/-- The DOM and component state the navigation and the modal share. -/
structure Page where
  /-- The `section[id]` elements in document order. -/
  sections : List Section
  /-- `window.pageYOffset`. -/
  pageYOffset : Int
  /-- `Navigation.isMenuOpen`. -/
  isMenuOpen : Bool
  /-- Whether `navMenu.classList` holds `active`. -/
  navMenuActive : Bool
  /-- Whether `navToggle.classList` holds `active`. -/
  navToggleActive : Bool
  /-- Whether `navbar.classList` holds `scrolled`. -/
  navbarScrolled : Bool
  /-- The `.nav-link` elements in document order. -/
  navLinks : List NavLink
  /-- The children of `#modal-body`. -/
  modalBody : List Html
  /-- `modal.style.display`. -/
  modalDisplay : String
  /-- `document.body.style.overflow`. -/
  bodyOverflow : String
  deriving Repr

/-- `ProjectModal.openModal` (lines 277-333). For an inherited property the
guard of line 279 passes and evaluating the template throws at
`project.technologies.map`, before anything is assigned. -/
def openModal (projectId : ProjectId) (s : Page) : Except JsError Page :=
  match projectDataGet projectId.toPropertyKey with
  | .undefined => .ok s
  | .inherited =>
    .error (.typeError "Cannot read properties of undefined (reading 'map')")
  | .own project =>
    .ok { s with
      modalBody := renderDetail project
      modalDisplay := "block"
      bodyOverflow := "hidden" }

/-- `ProjectModal.closeModal` (lines 335-338). -/
def closeModal (s : Page) : Page :=
  { s with modalDisplay := "none", bodyOverflow := "" }

/-- `portfolioUtils.openProject` (lines 647-650): a fresh `ProjectModal`
holds the same table and writes to the same modal. -/
def openProject (projectId : ProjectId) (s : Page) : Except JsError Page :=
  openModal projectId s

/-- `Navigation.toggleMenu` (lines 89-94). -/
def toggleMenu (s : Page) : Page :=
  { s with
    isMenuOpen := !s.isMenuOpen
    navMenuActive := !s.navMenuActive
    navToggleActive := !s.navToggleActive
    bodyOverflow := if !s.isMenuOpen then "hidden" else "" }

/-- `Navigation.closeMenu` (lines 96-101). -/
def closeMenu (s : Page) : Page :=
  { s with
    isMenuOpen := false
    navMenuActive := false
    navToggleActive := false
    bodyOverflow := "" }

/-- `Navigation.handleScroll` (lines 103-112). -/
def handleScroll (s : Page) : Page :=
  { s with navbarScrolled := decide (s.pageYOffset > 100) }

/-- The element a click lands on, by the listener it carries. -/
inductive ClickTarget where
  /-- A `.btn-details` button with its `data-project` attribute. -/
  | detailsButton (dataProject : ProjectId)
  | navToggle
  | navLink
  | modalClose
  /-- The modal container itself (`e.target === modal`). -/
  | modalBackdrop
  /-- Any element without a listener of its own, the modal's content included. -/
  | other
  deriving DecidableEq, Repr

/-- A page event whose listeners touch the state of `Page`. -/
inductive Event where
  /-- A click; `inNav` is `navMenu.contains(e.target) || navToggle.contains(e.target)`. -/
  | click (target : ClickTarget) (inNav : Bool)
  /-- A key press with `e.key`. -/
  | keydown (key : String)
  /-- A scroll event that passes the throttle, at the new `pageYOffset`. -/
  | scroll (pageYOffset : Int)
  deriving DecidableEq, Repr

/-- The listener registered on the clicked element itself (lines 51, 55,
257, 262, 263-267). An exception thrown by a listener is reported by the
browser and leaves the state as the listener found it. -/
def targetListener (t : ClickTarget) (s : Page) : Page :=
  match t with
  | .detailsButton dataProject =>
    match openModal dataProject s with
    | .ok s' => s'
    | .error _ => s
  | .navToggle => toggleMenu s
  | .navLink => closeMenu s
  | .modalClose => closeModal s
  | .modalBackdrop => closeModal s
  | .other => s

/-- The click listener `Navigation.bindEvents` registers on `document`
(lines 59-63); a click on the toggle is always inside it. -/
def documentClickListener (t : ClickTarget) (inNav : Bool) (s : Page) : Page :=
  if !inNav && t ≠ .navToggle then closeMenu s else s

/-- The `keydown` listener of `ProjectModal.bindEvents` (lines 270-274). -/
def keydownListener (key : String) (s : Page) : Page :=
  if key = "Escape" ∧ s.modalDisplay = "block" then closeModal s else s

/-- The throttled `scroll` listener of `Navigation.bindEvents` (lines 66-69);
an exception thrown by `setActiveSection` leaves the links as the loop left
them. -/
def scrollListener (query : NavLinkQuery) (pageYOffset : Int) (s : Page) : Page :=
  let s1 := handleScroll { s with pageYOffset := pageYOffset }
  { s1 with
    navLinks := (setActiveSection query s1.sections s1.navLinks s1.pageYOffset).links }

/-- One event: the clicked element's listener runs first, then the click
bubbles to `document`. -/
def handleEvent (query : NavLinkQuery) (s : Page) : Event → Page
  | .click t inNav => documentClickListener t inNav (targetListener t s)
  | .keydown key => keydownListener key s
  | .scroll y => scrollListener query y s

/-- A sequence of events, oldest first. -/
def runEvents (query : NavLinkQuery) (s : Page) (events : List Event) : Page :=
  events.foldl (handleEvent query) s

/-- The page once `DOMContentLoaded` has run the constructors to the end: the
menu is closed, no inline style is set, and `Navigation.init` has marked the
links for the initial scroll position. -/
def initialPage (query : NavLinkQuery) (sections : List Section) (links : List NavLink)
    (modalBody : List Html) (pageYOffset : Int) : Page where
  sections := sections
  pageYOffset := pageYOffset
  isMenuOpen := false
  navMenuActive := false
  navToggleActive := false
  navbarScrolled := false
  navLinks := (setActiveSection query sections links pageYOffset).links
  modalBody := modalBody
  modalDisplay := ""
  bodyOverflow := ""

/-! ## ContactForm -/

/-- The submit button of the contact form: its `textContent` and its
`disabled` flag. -/
structure SubmitButton where
  textContent : String
  disabled : Bool
  deriving DecidableEq, Repr

/-- A form control: its name, current value and default value. -/
structure FormField where
  name : String
  value : String
  defaultValue : String
  deriving DecidableEq, Repr

/-- `form.reset()` on one control. -/
def FormField.reset (f : FormField) : FormField := { f with value := f.defaultValue }

/-- A notification as `showNotification` receives it. -/
structure Notice where
  message : String
  type : String
  deriving DecidableEq, Repr

/-- A call of `handleSubmit` suspended at its `await` (line 372): the locals
it resumes with. -/
structure PendingSubmit where
  originalText : String
  data : List (String × String)
  deriving DecidableEq, Repr

/-- The contact form, the notifications shown so far, and the calls of
`handleSubmit` whose simulated request has not settled, oldest first. -/
structure FormState where
  button : SubmitButton
  fields : List FormField
  notices : List Notice
  pending : List PendingSubmit
  deriving DecidableEq, Repr

/-- The `textContent` of the button after line 367 assigns
`'<span class="spinner"></span> Enviando...'` to its `innerHTML`. -/
def sendingText : String := " Enviando..."

/-- `ContactForm.handleSubmit` up to its `await` (lines 359-372). -/
def handleSubmitBegin (s : FormState) : FormState :=
  let data := s.fields.map (fun f => (f.name, f.value))
  let originalText := s.button.textContent
  { s with
    button := { textContent := sendingText, disabled := true }
    pending := s.pending ++ [{ originalText := originalText, data := data }] }

/-- `ContactForm.handleSubmit` from the settling of the simulated request on
(lines 372-386), for the call `p`: the `try` branch when the promise
resolved, the `catch` branch when it rejected, then the `finally` block. -/
def handleSubmitResume (p : PendingSubmit) (resolved : Bool) (s : FormState) : FormState :=
  let s1 : FormState :=
    if resolved then
      { s with
        notices := s.notices ++
          [{ message := "Mensagem enviada com sucesso! Entrarei em contato em breve.",
             type := "success" }]
        fields := s.fields.map FormField.reset }
    else
      { s with
        notices := s.notices ++
          [{ message := "Erro ao enviar mensagem. Tente novamente ou entre em contato por email.",
             type := "error" }] }
  { s1 with button := { textContent := p.originalText, disabled := false } }

/-- What happens to the form: a `submit` event, or the 1500 ms timer of the
oldest unsettled `simulateSubmission` firing with its outcome (all timers
have the same delay, so they fire in the order they were set). -/
inductive FormEvent where
  | submit
  | settle (resolved : Bool)
  deriving DecidableEq, Repr

/-- One form event. -/
def formStep (s : FormState) : FormEvent → FormState
  | .submit => handleSubmitBegin s
  | .settle resolved =>
    match s.pending with
    | [] => s
    | p :: rest => handleSubmitResume p resolved { s with pending := rest }

/-- A sequence of form events, oldest first. -/
def runForm (s : FormState) (events : List FormEvent) : FormState :=
  events.foldl formStep s

/-- Submissions one after the other, each settled (with the given outcome)
before the next begins. -/
def sequentialSubmits (outcomes : List Bool) : List FormEvent :=
  outcomes.flatMap (fun o => [FormEvent.submit, FormEvent.settle o])

/-! ## ThemeToggle -/

/-- The four custom properties `applyTheme` sets on the root element's inline
style; `none` while a property has not been set. -/
structure ThemeVars where
  bgPrimary : Option String
  bgSecondary : Option String
  textPrimary : Option String
  textSecondary : Option String
  deriving DecidableEq, Repr

/-- The `ThemeToggle` instance together with the state it writes to. -/
structure ThemeState where
  /-- The field `this.theme`. -/
  theme : String
  /-- The `innerHTML` of `this.toggleButton`; `none` while the field is undefined. -/
  toggleButton : Option String
  /-- The inline custom properties of `document.documentElement`. -/
  vars : ThemeVars
  /-- The entry `localStorage.getItem('theme')`; `none` when absent. -/
  stored : Option String
  deriving DecidableEq, Repr

/-- The markup of the moon icon. -/
def moonIcon : String := "<i class=\"fas fa-moon\"></i>"

/-- The markup of the sun icon. -/
def sunIcon : String := "<i class=\"fas fa-sun\"></i>"

/-- The palette of the `dark` branch (lines 570-573). -/
def darkVars : ThemeVars where
  bgPrimary := some "#1e293b"
  bgSecondary := some "#334155"
  textPrimary := some "#f8fafc"
  textSecondary := some "#cbd5e1"

/-- The palette of the `else` branch (lines 579-582). -/
def lightVars : ThemeVars where
  bgPrimary := some "#ffffff"
  bgSecondary := some "#f8fafc"
  textPrimary := some "#1e293b"
  textSecondary := some "#64748b"

/-- `ThemeToggle.applyTheme` (lines 568-588). -/
def applyTheme (s : ThemeState) : ThemeState :=
  if s.theme = "dark" then
    { s with
      vars := darkVars
      toggleButton := s.toggleButton.map (fun _ => sunIcon) }
  else
    { s with
      vars := lightVars
      toggleButton := s.toggleButton.map (fun _ => moonIcon) }

/-- `ThemeToggle.createToggleButton` (lines 533-560). -/
def createToggleButton (s : ThemeState) : ThemeState :=
  { s with toggleButton := some moonIcon }

/-- `ThemeToggle.init` (lines 528-531). -/
def ThemeState.init (s : ThemeState) : ThemeState :=
  createToggleButton (applyTheme s)

/-- The value of `localStorage.getItem('theme') || 'light'`: `null` and the
empty string are the falsy results. -/
def storedOrLight : Option String → String
  | none => "light"
  | some v => if v = "" then "light" else v

/-- The `ThemeToggle` constructor (lines 523-526), run with the given storage
entry and inline properties. -/
def ThemeState.construct (stored : Option String) (vars : ThemeVars) : ThemeState :=
  ThemeState.init
    { theme := storedOrLight stored
      toggleButton := none
      vars := vars
      stored := stored }

/-- `ThemeToggle.toggleTheme` (lines 562-566). -/
def toggleTheme (s : ThemeState) : ThemeState :=
  let s1 := { s with theme := if s.theme = "light" then "dark" else "light" }
  let s2 := applyTheme s1
  { s2 with stored := some s2.theme }

/-- The state after `n` clicks on the toggle control. -/
def toggleTimes (n : Nat) (s : ThemeState) : ThemeState :=
  toggleTheme^[n] s

/-- The theme, the palette and the icon agree: light with the light palette
and the moon, or dark with the dark palette and the sun. -/
def ThemeState.Coherent (s : ThemeState) : Prop :=
  (s.theme = "light" ∧ s.vars = lightVars ∧ s.toggleButton = some moonIcon) ∨
  (s.theme = "dark" ∧ s.vars = darkVars ∧ s.toggleButton = some sunIcon)

/-! ## throttle -/

/-- What a call of the wrapper leads to if it gets to invoke `func`: the
arguments passed on, the calls of the wrapper `func` makes itself while it
runs (each with what it leads to in turn), and whether `func` then throws
instead of returning. -/
inductive CallScript (α : Type) where
  | mk (args : α) (inner : List (CallScript α)) (throws : Bool)

/-- The arguments of the call. -/
def CallScript.args {α : Type} : CallScript α → α
  | .mk a _ _ => a

/-- The calls of the wrapper made by `func` while it runs. -/
def CallScript.inner {α : Type} : CallScript α → List (CallScript α)
  | .mk _ i _ => i

/-- Whether `func` throws. -/
def CallScript.throws {α : Type} : CallScript α → Bool
  | .mk _ _ t => t

/-- One call of the wrapper returned by `throttle(func, limit)` from outside
`func`: the time on the virtual clock, whether the call runs before the
timers due at that very time (a call made from a timer that was set earlier),
and what the call leads to. -/
structure ThrottleCall (α : Type) where
  time : Nat
  beforeTimers : Bool
  script : CallScript α

/-- The closure state of one wrapper: the variable `inThrottle` (undefined
counts as false), the due times of the reset timers set and not yet fired,
and the invocations of `func` so far (time and arguments, oldest first). -/
structure ThrottleState (α : Type) where
  inThrottle : Bool
  timers : List Nat
  invocations : List (Nat × α)
  deriving Repr

/-- The state of a wrapper that has not been called. -/
def ThrottleState.initial (α : Type) : ThrottleState α :=
  { inThrottle := false, timers := [], invocations := [] }

/-- The delay `setTimeout` waits for: its argument is converted to a signed
32-bit integer, and a negative result counts as zero. -/
def timeoutDelay (limit : Nat) : Nat :=
  if limit % 2 ^ 32 < 2 ^ 31 then limit % 2 ^ 32 else 0

/-- Whether a timer due at `due` has fired when a call made at `time` runs:
timers due earlier have, timers due at that very time have unless the call
runs before them. -/
def firedBy (time : Nat) (beforeTimers : Bool) (due : Nat) : Bool :=
  decide (due < time) || (decide (due = time) && !beforeTimers)

/-- The virtual clock reaches a call: every reset timer that has fired by
then has run its callback `() => inThrottle = false` (line 22). -/
def ThrottleState.fireTimers {α : Type} (time : Nat) (beforeTimers : Bool)
    (s : ThrottleState α) : ThrottleState α :=
  { s with
    inThrottle := if s.timers.any (firedBy time beforeTimers) then false else s.inThrottle
    timers := s.timers.filter (fun due => !firedBy time beforeTimers due) }

mutual
/-- The body of the wrapper (lines 17-23) run at `time`: when `inThrottle` is
not set, `func` is invoked, makes its own calls of the wrapper, and only
when it has returned are `inThrottle` and the reset timer set; an exception
leaves the wrapper before that. -/
def wrapperCall {α : Type} (limit time : Nat) : CallScript α → ThrottleState α →
    ThrottleState α
  | .mk args inner throws, s =>
    if !s.inThrottle then
      let s1 := wrapperCalls limit time inner
        { s with invocations := s.invocations ++ [(time, args)] }
      if throws then s1
      else { s1 with inThrottle := true, timers := s1.timers ++ [time + timeoutDelay limit] }
    else s
/-- The calls `func` makes of the wrapper, one after the other. -/
def wrapperCalls {α : Type} (limit time : Nat) : List (CallScript α) → ThrottleState α →
    ThrottleState α
  | [], s => s
  | c :: cs, s => wrapperCalls limit time cs (wrapperCall limit time c s)
end

/-- One call of the wrapper from outside `func`, after the timers that have
fired by then. -/
def throttleCall {α : Type} (limit : Nat) (s : ThrottleState α) (c : ThrottleCall α) :
    ThrottleState α :=
  wrapperCall limit c.time c.script (s.fireTimers c.time c.beforeTimers)

/-- A sequence of calls of one wrapper, oldest first. -/
def runThrottle {α : Type} (limit : Nat) (calls : List (ThrottleCall α)) :
    ThrottleState α :=
  calls.foldl (throttleCall limit) (ThrottleState.initial α)

/-- Whether the call `c`, made after the calls `pre`, gets to invoke `func`:
`inThrottle` is not set when it runs. -/
def invokes {α : Type} (limit : Nat) (pre : List (ThrottleCall α)) (c : ThrottleCall α) :
    Prop :=
  ((runThrottle limit pre).fireTimers c.time c.beforeTimers).inThrottle = false

/-- A callback that behaves: each time `func` is invoked by one of the calls
it returns normally and has made no call of the wrapper itself. Nothing is
asked of what `func` would do on a call that is dropped. -/
def WellBehaved {α : Type} (limit : Nat) (calls : List (ThrottleCall α)) : Prop :=
  ∀ pre c post, calls = pre ++ c :: post → invokes limit pre c →
    c.script.throws = false ∧ c.script.inner = []

/-- What links the state of a wrapper to the clock: the invocations so far
are pairwise at least `limit` apart, and either the wrapper is open, no timer
is pending and every invocation lies at least `limit` before `now`, or it is
closed and the one pending timer is due no earlier than `now`, `limit` after
one of the invocations and at least `limit` after every invocation. -/
def ThrottleState.Paced {α : Type} (limit now : Nat) (s : ThrottleState α) : Prop :=
  s.invocations.Pairwise (fun a b => a.1 + limit ≤ b.1) ∧
  ((s.inThrottle = false ∧ s.timers = [] ∧ ∀ inv ∈ s.invocations, inv.1 + limit ≤ now) ∨
   (s.inThrottle = true ∧ ∃ due, s.timers = [due] ∧ now ≤ due ∧
      (∃ inv ∈ s.invocations, due = inv.1 + limit) ∧
      ∀ inv ∈ s.invocations, inv.1 + limit ≤ due))

/-! ## Notifications -/

/-- What a timer set for a notification does when it fires. -/
inductive TimerAction where
  /-- The callback of lines 430-432: slide the element in. -/
  | animateIn
  /-- The callback of lines 439-441: `this.removeNotification(notification)`. -/
  | autoRemove
  /-- The callback of lines 446-450: detach the element if it has a parent. -/
  | detach
  deriving DecidableEq, Repr

/-- A pending `setTimeout`: the time it is due on the virtual clock and its
callback. -/
structure Timer where
  due : Nat
  action : TimerAction
  deriving DecidableEq, Repr

/-- One notification element: what it shows, whether it is in the document
(`notification.parentNode` is not null), its `style.transform`, and the
timers set for it that have not fired, in the order they were set. -/
structure Notification where
  notice : Notice
  inDocument : Bool
  transform : String
  timers : List Timer
  deriving DecidableEq, Repr

/-- `ContactForm.showNotification` (lines 402-442) called at time `t0`. -/
def showNotification (t0 : Nat) (message type : String) : Notification :=
  { notice := { message := message, type := type }
    inDocument := true
    transform := "translateX(100%)"
    timers := [⟨t0 + 100, .animateIn⟩, ⟨t0 + 5000, .autoRemove⟩] }

/-- `ContactForm.removeNotification` (lines 444-451) called at time `now`. -/
def removeNotification (now : Nat) (n : Notification) : Notification :=
  { n with
    transform := "translateX(100%)"
    timers := n.timers ++ [⟨now + 300, .detach⟩] }

/-- The callback of a timer, run at the time the timer is due. The guard
`if (notification.parentNode)` makes detaching a detached element a no-op. -/
def Timer.fire (t : Timer) (n : Notification) : Notification :=
  match t.action with
  | .animateIn => { n with transform := "translateX(0)" }
  | .autoRemove => removeNotification t.due n
  | .detach => if n.inDocument then { n with inDocument := false } else n

/-- The pending timer that fires next when the clock moves to `now`: the one
due earliest among those due by `now`, the one set first among equals. -/
def nextDue (now : Nat) : List Timer → Option Timer
  | [] => none
  | t :: ts =>
    match nextDue now ts with
    | none => if t.due ≤ now then some t else none
    | some u => if t.due ≤ u.due then some t else some u

/-- How many timer callbacks a timer can still cause to run: an `autoRemove`
sets one further timer. -/
def Timer.weight (t : Timer) : Nat :=
  match t.action with
  | .autoRemove => 2
  | _ => 1

/-- How many timer callbacks the pending timers can still cause to run. -/
def timersWeight (ts : List Timer) : Nat :=
  (ts.map Timer.weight).sum

/-- Run at most `fuel` timer callbacks due by `now`, in firing order. -/
def fireDue (now : Nat) : Nat → Notification → Notification
  | 0, n => n
  | fuel + 1, n =>
    match nextDue now n.timers with
    | none => n
    | some t => fireDue now fuel (t.fire { n with timers := n.timers.erase t })

/-- The virtual clock moves to `now`: every timer due by then fires, the
timers set by those callbacks included. -/
def advanceTo (now : Nat) (n : Notification) : Notification :=
  fireDue now (timersWeight n.timers) n

/-- A click on the close control at time `tc` (line 436), after the clock has
moved there. -/
def clickClose (n : Notification) (tc : Nat) : Notification :=
  removeNotification tc (advanceTo tc n)

/-- The notification created at `t0`, as it is at time `T` when its close
control was clicked at the times `clicks` (in the order of the clicks). -/
def notificationAt (t0 : Nat) (message type : String) (clicks : List Nat) (T : Nat) :
    Notification :=
  advanceTo T (clicks.foldl clickClose (showNotification t0 message type))

/-- Whether the notification is out of the document by time `D` once the
timers due by then have fired: it is detached already, or a `detach` timer is
due by `D`, or the `autoRemove` timer is due at least 300 ms before `D`. -/
def Notification.Doomed (D : Nat) (n : Notification) : Prop :=
  n.inDocument = false ∨
  (∃ t ∈ n.timers, t.action = .detach ∧ t.due ≤ D) ∨
  (∃ t ∈ n.timers, t.action = .autoRemove ∧ t.due + 300 ≤ D)

/-! ## Navigation: which link `setActiveSection` marks -/

theorem removeActiveAll_idem (links : List NavLink) :
    removeActiveAll (removeActiveAll links) = removeActiveAll links := by
  simp [removeActiveAll, NavLink.removeActive, Function.comp_def]

theorem removeActiveAll_addActiveFirst (href : String) (links : List NavLink) :
    removeActiveAll (addActiveFirst href links) = removeActiveAll links := by
  induction links with
  | nil => rfl
  | cons l ls ih =>
    unfold addActiveFirst
    split
    · simp [removeActiveAll, NavLink.removeActive]
    · simpa [removeActiveAll] using ih

theorem getLast?_cons_match {α : Type} (x : α) (m : List α) :
    (x :: m).getLast? =
      match m.getLast? with
      | some t => some t
      | none => some x := by
  cases m with
  | nil => rfl
  | cons a as =>
    rw [List.getLast?_cons_cons, List.getLast?_eq_getLast (a :: as) (by simp)]

theorem lastMatching_cons (s : Section) (rest : List Section) (scrollPos : Int) :
    lastMatching (s :: rest) scrollPos =
      match lastMatching rest scrollPos with
      | some t => some t
      | none => if s.contains scrollPos then some s else none := by
  unfold lastMatching matching
  by_cases h : s.contains scrollPos
  · rw [List.filter_cons_of_pos (by simpa using h), getLast?_cons_match]
    simp only [h, if_true]
    generalize (List.filter (fun s => decide (s.contains scrollPos)) rest).getLast? = q
    cases q <;> rfl
  · rw [List.filter_cons_of_neg (by simpa using h)]
    simp only [h, if_false]
    generalize (List.filter (fun s => decide (s.contains scrollPos)) rest).getLast? = q
    cases q <;> rfl

theorem lastMatching_mem {sections : List Section} {scrollPos : Int} {s : Section}
    (h : lastMatching sections scrollPos = some s) :
    s ∈ sections ∧ s.contains scrollPos := by
  have hm : s ∈ matching sections scrollPos := List.mem_of_getLast?_eq_some h
  simpa [matching] using hm

theorem lastMatching_eq_none {sections : List Section} {scrollPos : Int} :
    lastMatching sections scrollPos = none ↔ matching sections scrollPos = [] := by
  simp [lastMatching]

theorem activeLinks_addActiveFirst (href : String) (links : List NavLink) :
    activeLinks (addActiveFirst href (removeActiveAll links)) =
      ((links.find? (fun l => l.href = href)).map
        (fun l => ({ l with active := true } : NavLink))).toList := by
  induction links with
  | nil => rfl
  | cons l ls ih =>
    by_cases h : l.href = href
    · have hz : activeLinks (removeActiveAll ls) = [] := by
        simp [activeLinks, removeActiveAll, NavLink.removeActive]
      simp only [removeActiveAll, List.map_cons] at hz ⊢
      simp [addActiveFirst, NavLink.removeActive, h, activeLinks] at hz ⊢
    · simp only [removeActiveAll, List.map_cons] at ih ⊢
      simp [addActiveFirst, NavLink.removeActive, h, activeLinks] at ih ⊢
      simpa [activeLinks] using ih

theorem activeLinks_addActiveFirst_length (href : String) (links : List NavLink) :
    (activeLinks (addActiveFirst href (removeActiveAll links))).length ≤ 1 := by
  rw [activeLinks_addActiveFirst]
  cases List.find? (fun l => decide (l.href = href)) links <;> simp

theorem activeLinks_addActiveFirst_href (href : String) (links : List NavLink) (l : NavLink)
    (hl : l ∈ activeLinks (addActiveFirst href (removeActiveAll links))) :
    l.href = href := by
  rw [activeLinks_addActiveFirst] at hl
  cases hf : List.find? (fun l => decide (l.href = href)) links with
  | none => simp [hf] at hl
  | some m =>
    have hm := List.find?_some hf
    simp [hf] at hl
    subst hl
    simpa using hm

theorem exactQuery_conforms : exactQuery.Conforms :=
  fun _ _ _ => rfl

/-- Marking the link found by its `href` is marking the first link that
carries the `href`. -/
theorem markFound_firstWithHref (href : String) (links : List NavLink) :
    markFound (firstWithHref href links) (removeActiveAll links) =
      addActiveFirst href (removeActiveAll links) := by
  induction links with
  | nil => rfl
  | cons l ls ih =>
    by_cases h : l.href = href
    · simp [firstWithHref, h, markFound, markAt, removeActiveAll, addActiveFirst,
        NavLink.removeActive]
    · cases hf : firstWithHref href ls with
      | none =>
        rw [hf] at ih
        simp only [markFound, removeActiveAll] at ih
        simp [firstWithHref, h, hf, markFound, removeActiveAll, addActiveFirst,
          NavLink.removeActive]
        simpa [NavLink.removeActive] using ih
      | some i =>
        rw [hf] at ih
        simp only [markFound, removeActiveAll] at ih
        simp [firstWithHref, h, hf, markFound, markAt, removeActiveAll, addActiveFirst,
          NavLink.removeActive]
        simpa [NavLink.removeActive] using ih

/-- One section with a selector-safe id, on a conforming browser: no
exception, and the links change only if the section contains the position. -/
theorem sectionStep_conforms (query : NavLinkQuery) (hq : query.Conforms) (scrollPos : Int)
    (links : List NavLink) (s : Section) (hs : selectorSafe s.id = true) :
    sectionStep query scrollPos links s =
      { links := if s.contains scrollPos
          then addActiveFirst ("#" ++ s.id) (removeActiveAll links) else links
        error := none } := by
  unfold sectionStep
  rw [hq s.id links hs]
  by_cases h : s.contains scrollPos
  · simp [h, markFound_firstWithHref]
  · simp [h]

/-- The loop of `setActiveSection` in closed form, for selector-safe ids on a
conforming browser: it throws nothing, leaves the links alone when no section
contains the position, and otherwise ends as if only the last section
containing it had been visited. -/
theorem forEachSection_conforms (query : NavLinkQuery) (hq : query.Conforms)
    (scrollPos : Int) (sections : List Section) (links : List NavLink)
    (hs : ∀ s ∈ sections, selectorSafe s.id = true) :
    forEachSection query scrollPos sections links =
      { links := match lastMatching sections scrollPos with
          | none => links
          | some s => addActiveFirst ("#" ++ s.id) (removeActiveAll links)
        error := none } := by
  induction sections generalizing links with
  | nil => simp [forEachSection, lastMatching, matching]
  | cons s rest ih =>
    have hstep := sectionStep_conforms query hq scrollPos links s (hs s (by simp))
    have hrest := fun l => ih l (fun t ht => hs t (by simp [ht]))
    unfold forEachSection
    rw [hstep]
    simp only
    rw [hrest, lastMatching_cons]
    cases hr : lastMatching rest scrollPos with
    | some t =>
      by_cases h : s.contains scrollPos
      · simp [h, removeActiveAll_addActiveFirst, removeActiveAll_idem]
      · simp [h]
    | none =>
      by_cases h : s.contains scrollPos
      · simp [h]
      · simp [h]

/-- On selector-safe ids every conforming browser gives the result of
`exactQuery`. -/
theorem setActiveSection_query_irrelevant (query : NavLinkQuery) (hq : query.Conforms)
    (sections : List Section) (links : List NavLink) (P : Int)
    (hs : ∀ s ∈ sections, selectorSafe s.id = true) :
    setActiveSection query sections links P = setActiveSection exactQuery sections links P := by
  unfold setActiveSection
  rw [forEachSection_conforms query hq _ _ _ hs,
    forEachSection_conforms exactQuery exactQuery_conforms _ _ _ hs]

/-- Whatever the browser answers, a section that does not contain the
position leaves the links as they are. -/
theorem sectionStep_links_of_not_contains (query : NavLinkQuery) (scrollPos : Int)
    (links : List NavLink) (s : Section) (h : ¬ s.contains scrollPos) :
    (sectionStep query scrollPos links s).links = links := by
  unfold sectionStep
  cases query s.id links with
  | error e => rfl
  | ok navLink => simp [h]

/-- Whatever the browser answers, and whether or not the loop ends in an
exception, it changes no link when no section contains the position. -/
theorem forEachSection_no_match (query : NavLinkQuery) (scrollPos : Int)
    (sections : List Section) (links : List NavLink)
    (h : ∀ s ∈ sections, ¬ s.contains scrollPos) :
    (forEachSection query scrollPos sections links).links = links := by
  induction sections generalizing links with
  | nil => rfl
  | cons s rest ih =>
    have hstep := sectionStep_links_of_not_contains query scrollPos links s (h s (by simp))
    unfold forEachSection
    cases he : (sectionStep query scrollPos links s).error with
    | some e => simpa using hstep
    | none =>
      simp only
      rw [hstep]
      exact ih links (fun t ht => h t (by simp [ht]))

theorem activeLinks_markAt_length (i : Nat) (links : List NavLink) :
    (activeLinks (markAt i (removeActiveAll links))).length ≤ 1 := by
  induction links generalizing i with
  | nil => simp [removeActiveAll, markAt, activeLinks]
  | cons l ls ih =>
    have hz : activeLinks (removeActiveAll ls) = [] := by
      simp [activeLinks, removeActiveAll, NavLink.removeActive]
    cases i with
    | zero =>
      simp only [removeActiveAll, List.map_cons] at hz ⊢
      simp [markAt, activeLinks, NavLink.removeActive] at hz ⊢
    | succ j =>
      have := ih j
      simp only [removeActiveAll, List.map_cons] at this ⊢
      simpa [markAt, activeLinks, NavLink.removeActive] using this

/-- Whatever the browser answers and whatever the ids are, one section leaves
the links as they are or leaves at most one of them marked. -/
theorem sectionStep_at_most_one (query : NavLinkQuery) (scrollPos : Int)
    (links : List NavLink) (s : Section) :
    (sectionStep query scrollPos links s).links = links ∨
    (activeLinks (sectionStep query scrollPos links s).links).length ≤ 1 := by
  unfold sectionStep
  cases query s.id links with
  | error e => exact Or.inl rfl
  | ok navLink =>
    by_cases h : s.contains scrollPos
    · right
      cases navLink with
      | none =>
        have hz : activeLinks (removeActiveAll links) = [] := by
          simp [activeLinks, removeActiveAll, NavLink.removeActive]
        simp [h, markFound, hz]
      | some i => simpa [h, markFound] using activeLinks_markAt_length i links
    · exact Or.inl (by simp [h])

/-- Whatever the browser answers and whatever the ids are, `setActiveSection`
leaves the links as they are or leaves at most one of them marked. -/
theorem setActiveSection_at_most_one (query : NavLinkQuery) (sections : List Section)
    (links : List NavLink) (P : Int) :
    (setActiveSection query sections links P).links = links ∨
    (activeLinks (setActiveSection query sections links P).links).length ≤ 1 := by
  unfold setActiveSection
  induction sections generalizing links with
  | nil => exact Or.inl rfl
  | cons s rest ih =>
    unfold forEachSection
    have hstep := sectionStep_at_most_one query (P + 100) links s
    cases he : (sectionStep query (P + 100) links s).error with
    | some e => simpa using hstep
    | none =>
      simp only
      rcases ih (sectionStep query (P + 100) links s).links with h | h
      · rw [h]
        exact hstep
      · exact Or.inr h

/-- C1 (as stated, refuted): with a gap below the only section, the mark set
at the top of the page survives the call made at offset 450, where
`450 + 100` lies outside every section: a link is marked whose section does
not contain the position. -/
theorem setActiveSection_keeps_stale_mark :
    ¬ ((activeLinks (setActiveSection exactQuery [⟨"home", 0, 500⟩]
          (setActiveSection exactQuery [⟨"home", 0, 500⟩]
            [⟨"#home", false⟩, ⟨"#about", false⟩] 0).links
          450).links).length ≤ 1 ∧
       ∀ l ∈ activeLinks (setActiveSection exactQuery [⟨"home", 0, 500⟩]
          (setActiveSection exactQuery [⟨"home", 0, 500⟩]
            [⟨"#home", false⟩, ⟨"#about", false⟩] 0).links
          450).links,
        ∃ s ∈ ([⟨"home", 0, 500⟩] : List Section),
          l.href = "#" ++ s.id ∧ s.offsetTop ≤ 450 + 100 ∧
            450 + 100 < s.offsetTop + s.offsetHeight) := by
  decide

/-- C1 (amended): on a page whose section ids are selector-safe (no double
quote, backslash, line break or NUL), in a conforming browser, after
`setActiveSection` either no section contains `P + 100`, nothing is thrown
and every link keeps the mark it had, or at most one link is marked and every
marked link references a section with `top <= P+100 < top+height`. -/
theorem setActiveSection_active_sound (query : NavLinkQuery) (sections : List Section)
    (links : List NavLink) (P : Int) (hq : query.Conforms)
    (hs : ∀ s ∈ sections, selectorSafe s.id = true) :
    (matching sections (P + 100) = [] ∧
      setActiveSection query sections links P = { links := links, error := none }) ∨
    ((activeLinks (setActiveSection query sections links P).links).length ≤ 1 ∧
      ∀ l ∈ activeLinks (setActiveSection query sections links P).links,
        ∃ s ∈ sections, l.href = "#" ++ s.id ∧
          s.offsetTop ≤ P + 100 ∧ P + 100 < s.offsetTop + s.offsetHeight) := by
  unfold setActiveSection
  rw [forEachSection_conforms query hq _ _ _ hs]
  cases h : lastMatching sections (P + 100) with
  | none => exact Or.inl ⟨lastMatching_eq_none.mp h, rfl⟩
  | some s =>
    refine Or.inr ⟨activeLinks_addActiveFirst_length _ _, fun l hl => ?_⟩
    obtain ⟨hs, hc⟩ := lastMatching_mem h
    exact ⟨s, hs, activeLinks_addActiveFirst_href _ _ l hl, hc.1, hc.2⟩

/-- Witness of C1 (amended): two sections, the first link marked from
before; at offset 600 the second section contains `700`. -/
theorem setActiveSection_active_sound_witness :
    exactQuery.Conforms ∧
    (∀ s ∈ ([⟨"home", 0, 500⟩, ⟨"about", 500, 400⟩] : List Section),
      selectorSafe s.id = true) ∧
    ((matching [⟨"home", 0, 500⟩, ⟨"about", 500, 400⟩] (600 + 100) = [] ∧
      setActiveSection exactQuery [⟨"home", 0, 500⟩, ⟨"about", 500, 400⟩]
          [⟨"#home", true⟩, ⟨"#about", false⟩] 600 =
        { links := [⟨"#home", true⟩, ⟨"#about", false⟩], error := none }) ∨
    ((activeLinks (setActiveSection exactQuery [⟨"home", 0, 500⟩, ⟨"about", 500, 400⟩]
        [⟨"#home", true⟩, ⟨"#about", false⟩] 600).links).length ≤ 1 ∧
      ∀ l ∈ activeLinks (setActiveSection exactQuery [⟨"home", 0, 500⟩, ⟨"about", 500, 400⟩]
          [⟨"#home", true⟩, ⟨"#about", false⟩] 600).links,
        ∃ s ∈ ([⟨"home", 0, 500⟩, ⟨"about", 500, 400⟩] : List Section),
          l.href = "#" ++ s.id ∧
            s.offsetTop ≤ 600 + 100 ∧ 600 + 100 < s.offsetTop + s.offsetHeight)) :=
  ⟨exactQuery_conforms, by decide,
   setActiveSection_active_sound exactQuery [⟨"home", 0, 500⟩, ⟨"about", 500, 400⟩]
     [⟨"#home", true⟩, ⟨"#about", false⟩] 600 exactQuery_conforms (by decide)⟩

/-- C2 (as stated, refuted): a section nested in another one. Both contain
`100 + 100`; the first in document order is `projects`, yet the link left
marked is the one of `featured`. -/
theorem setActiveSection_first_match_loses :
    ¬ (∀ s, firstMatching [⟨"projects", 0, 1000⟩, ⟨"featured", 100, 400⟩] (100 + 100) = some s →
        activeLinks (setActiveSection exactQuery
            [⟨"projects", 0, 1000⟩, ⟨"featured", 100, 400⟩]
            [⟨"#projects", false⟩, ⟨"#featured", false⟩] 100).links
          = [⟨"#" ++ s.id, true⟩]) := by
  intro h
  have h1 := h ⟨"projects", 0, 1000⟩ (by decide)
  revert h1
  decide

/-- C2 (amended): on a page whose section ids are selector-safe, in a
conforming browser, when at least one section contains `P + 100` the call
throws nothing, unmarks every link and then marks the first link whose `href`
references the LAST such section in document order; that link, if there is
one, is the only link marked afterwards. -/
theorem setActiveSection_last_match_wins (query : NavLinkQuery) (sections : List Section)
    (links : List NavLink) (P : Int) (hq : query.Conforms)
    (hs : ∀ s ∈ sections, selectorSafe s.id = true)
    (h : matching sections (P + 100) ≠ []) :
    ∃ s, lastMatching sections (P + 100) = some s ∧ s ∈ sections ∧
      (s.offsetTop ≤ P + 100 ∧ P + 100 < s.offsetTop + s.offsetHeight) ∧
      setActiveSection query sections links P =
        { links := addActiveFirst ("#" ++ s.id) (removeActiveAll links), error := none } ∧
      activeLinks (setActiveSection query sections links P).links =
        ((links.find? (fun l => l.href = "#" ++ s.id)).map
          (fun l => ({ l with active := true } : NavLink))).toList := by
  cases hl : lastMatching sections (P + 100) with
  | none => exact absurd (lastMatching_eq_none.mp hl) h
  | some s =>
    obtain ⟨hmem, hc⟩ := lastMatching_mem hl
    have he : setActiveSection query sections links P =
        { links := addActiveFirst ("#" ++ s.id) (removeActiveAll links), error := none } := by
      unfold setActiveSection
      rw [forEachSection_conforms query hq _ _ _ hs, hl]
    exact ⟨s, rfl, hmem, ⟨hc.1, hc.2⟩, he, by rw [he, activeLinks_addActiveFirst]⟩

/-- Witness of C2 (amended) on the nested layout: `featured` is the last
section containing `200`, and its link ends up the only one marked. -/
theorem setActiveSection_last_match_wins_witness :
    exactQuery.Conforms ∧
    (∀ s ∈ ([⟨"projects", 0, 1000⟩, ⟨"featured", 100, 400⟩] : List Section),
      selectorSafe s.id = true) ∧
    matching [⟨"projects", 0, 1000⟩, ⟨"featured", 100, 400⟩] (100 + 100) ≠ [] ∧
    ∃ s, lastMatching [⟨"projects", 0, 1000⟩, ⟨"featured", 100, 400⟩] (100 + 100) = some s ∧
      s ∈ ([⟨"projects", 0, 1000⟩, ⟨"featured", 100, 400⟩] : List Section) ∧
      (s.offsetTop ≤ 100 + 100 ∧ 100 + 100 < s.offsetTop + s.offsetHeight) ∧
      setActiveSection exactQuery [⟨"projects", 0, 1000⟩, ⟨"featured", 100, 400⟩]
          [⟨"#projects", true⟩, ⟨"#featured", false⟩] 100 =
        { links := addActiveFirst ("#" ++ s.id)
            (removeActiveAll [⟨"#projects", true⟩, ⟨"#featured", false⟩]),
          error := none } ∧
      activeLinks (setActiveSection exactQuery [⟨"projects", 0, 1000⟩, ⟨"featured", 100, 400⟩]
          [⟨"#projects", true⟩, ⟨"#featured", false⟩] 100).links =
        (((([⟨"#projects", true⟩, ⟨"#featured", false⟩] : List NavLink)).find?
            (fun l => l.href = "#" ++ s.id)).map
          (fun l => ({ l with active := true } : NavLink))).toList :=
  ⟨exactQuery_conforms, by decide, by decide,
   setActiveSection_last_match_wins exactQuery
     [⟨"projects", 0, 1000⟩, ⟨"featured", 100, 400⟩]
     [⟨"#projects", true⟩, ⟨"#featured", false⟩] 100 exactQuery_conforms (by decide)
     (by decide)⟩

theorem sampleBrowserQuery_conforms : sampleBrowserQuery.Conforms := by
  intro id links hsafe
  have h1 : id ≠ "a\\62" := by
    intro h
    subst h
    exact absurd hsafe (by decide)
  have h2 : id ≠ "a\"" := by
    intro h
    subst h
    exact absurd hsafe (by decide)
  simp [sampleBrowserQuery, h1, h2, exactQuery]

/-- Why the ids have to be selector-safe. For the section id `a\62` the link
marked is `#ab`, which references no section; for a section id ending in a
double quote line 122 throws before the second section is reached, and the
mark on `#home` stays although `home` does not contain the position. -/
theorem setActiveSection_unsafe_ids :
    setActiveSection sampleBrowserQuery [⟨"a\\62", 0, 500⟩]
        [⟨"#ab", false⟩, ⟨"#a\\62", false⟩] 0 =
      { links := [⟨"#ab", true⟩, ⟨"#a\\62", false⟩], error := none } ∧
    setActiveSection sampleBrowserQuery [⟨"a\"", 0, 500⟩, ⟨"about", 500, 400⟩]
        [⟨"#home", true⟩, ⟨"#about", false⟩] 600 =
      { links := [⟨"#home", true⟩, ⟨"#about", false⟩],
        error := some (.syntaxError "not a valid selector") } := by
  decide

/-- C10 (as stated, refuted): below the last section no section contains
`1000 + 100`, and the link that was marked before the call is still marked
after it. -/
theorem setActiveSection_no_match_keeps_mark :
    ¬ (matching [⟨"home", 0, 500⟩, ⟨"contact", 500, 300⟩] (1000 + 100) = [] →
        activeLinks (setActiveSection exactQuery [⟨"home", 0, 500⟩, ⟨"contact", 500, 300⟩]
          [⟨"#home", false⟩, ⟨"#contact", true⟩] 1000).links = []) := by
  decide

/-- C10 (amended): when no section contains `P + 100`, `setActiveSection`
changes no link, whatever the section ids are and whatever the browser
answers for their selectors: every link is marked after the call exactly when
it was marked before it. -/
theorem setActiveSection_no_match_unchanged (query : NavLinkQuery)
    (sections : List Section) (links : List NavLink) (P : Int)
    (h : matching sections (P + 100) = []) :
    (setActiveSection query sections links P).links = links := by
  unfold setActiveSection
  apply forEachSection_no_match
  intro s hs hc
  have hm : s ∈ matching sections (P + 100) := by
    simp [matching, hs, hc]
  rw [h] at hm
  exact absurd hm (List.not_mem_nil _)

/-- Witness of C10 (amended): below the last section the marks are untouched. -/
theorem setActiveSection_no_match_unchanged_witness :
    matching [⟨"home", 0, 500⟩, ⟨"contact", 500, 300⟩] (1000 + 100) = [] ∧
    (setActiveSection exactQuery [⟨"home", 0, 500⟩, ⟨"contact", 500, 300⟩]
        [⟨"#home", false⟩, ⟨"#contact", true⟩] 1000).links =
      [⟨"#home", false⟩, ⟨"#contact", true⟩] :=
  ⟨by decide,
   setActiveSection_no_match_unchanged exactQuery [⟨"home", 0, 500⟩, ⟨"contact", 500, 300⟩]
     [⟨"#home", false⟩, ⟨"#contact", true⟩] 1000 (by decide)⟩

/-! ## ProjectModal: what `openModal` renders -/

theorem byClassList_append (c : String) (xs ys : List Html) :
    byClassList c (xs ++ ys) = byClassList c xs ++ byClassList c ys := by
  induction xs with
  | nil => simp [byClassList]
  | cons x xs ih => simp [byClassList, ih]

theorem byTagList_append (g : String) (xs ys : List Html) :
    byTagList g (xs ++ ys) = byTagList g xs ++ byTagList g ys := by
  induction xs with
  | nil => simp [byTagList]
  | cons x xs ih => simp [byTagList, ih]

/-- Elements built from a list of strings, each holding its string as text,
are found by a class they carry: one per string, in the same order. -/
theorem byClassList_map_of_mem (c tag : String) (cls : List String)
    (as : List (String × String)) (h : c ∈ cls) (xs : List String) :
    (byClassList c (xs.map (fun x => Html.elem tag cls as [.text x]))).map Html.textContent
      = xs := by
  induction xs with
  | nil => simp [byClassList]
  | cons t ts ih =>
    simp [byClassList, Html.byClass, h, Html.textContent, textContentList] at ih ⊢
    exact ih

/-- Elements that do not carry the class contribute nothing to a query by
class. -/
theorem byClassList_map_of_not_mem (c tag : String) (cls : List String)
    (as : List (String × String)) (h : c ∉ cls) (xs : List String) :
    byClassList c (xs.map (fun x => Html.elem tag cls as [.text x])) = [] := by
  induction xs with
  | nil => simp [byClassList]
  | cons t ts ih => simp [byClassList, Html.byClass, h, ih]

/-- Elements built from a list of strings are found by their tag: one per
string, in the same order. -/
theorem byTagList_map_same (tag : String) (cls : List String)
    (as : List (String × String)) (xs : List String) :
    (byTagList tag (xs.map (fun x => Html.elem tag cls as [.text x]))).map Html.textContent
      = xs := by
  induction xs with
  | nil => simp [byTagList]
  | cons t ts ih =>
    simp [byTagList, Html.byTag, Html.textContent, textContentList] at ih ⊢
    exact ih

/-- Elements of another tag contribute nothing to a query by tag. -/
theorem byTagList_map_other (g tag : String) (cls : List String)
    (as : List (String × String)) (h : g ≠ tag) (xs : List String) :
    byTagList g (xs.map (fun x => Html.elem tag cls as [.text x])) = [] := by
  induction xs with
  | nil => simp [byTagList]
  | cons t ts ih => simp [byTagList, Html.byTag, h, ih]

/-- What the detail view of any record holds, read back through DOM queries. -/
theorem renderDetail_queries (project : ProjectRecord) :
    (byClassList "project-detail-title" (renderDetail project)).map Html.textContent
      = [project.title] ∧
    (byClassList "project-detail-description" (renderDetail project)).map Html.textContent
      = [project.description] ∧
    (byTagList "img" (renderDetail project)).map (Html.getAttribute "src")
      = [some project.image] ∧
    (byTagList "a" (renderDetail project)).map (Html.getAttribute "href")
      = [some project.liveUrl, some project.githubUrl] ∧
    (byTagList "p" (renderDetail project)).map Html.textContent
      = [project.description, project.challenges, project.results] ∧
    (((byClassList "tech-tags" (renderDetail project)).flatMap Html.children).map
        Html.textContent = project.technologies ∧
      (byClassList "tech-tag" (renderDetail project)).map Html.textContent
        = project.technologies) ∧
    (((byClassList "features-list" (renderDetail project)).flatMap Html.children).map
        Html.textContent = project.features ∧
      (byTagList "li" (renderDetail project)).map Html.textContent = project.features) := by
  refine ⟨?_, ?_, ?_, ?_, ?_, ⟨?_, ?_⟩, ⟨?_, ?_⟩⟩
  · simp [renderDetail, el, byClassList, Html.byClass, Html.textContent, textContentList,
      byClassList_map_of_not_mem]
  · simp [renderDetail, el, byClassList, Html.byClass, Html.textContent, textContentList,
      byClassList_map_of_not_mem]
  · simp [renderDetail, el, byTagList, Html.byTag, Html.getAttribute, byTagList_map_other]
  · simp [renderDetail, el, byTagList, Html.byTag, Html.getAttribute, byTagList_map_other]
  · simp [renderDetail, el, byTagList, Html.byTag, Html.textContent, textContentList,
      byTagList_map_other]
  · simp [renderDetail, el, byClassList, Html.byClass, Html.children,
      byClassList_map_of_not_mem, Function.comp_def, Html.textContent, textContentList]
  · simp [renderDetail, el, byClassList, Html.byClass, byClassList_map_of_not_mem,
      byClassList_map_of_mem]
  · simp [renderDetail, el, byClassList, Html.byClass, Html.children,
      byClassList_map_of_not_mem, Function.comp_def, Html.textContent, textContentList]
  · simp [renderDetail, el, byTagList, Html.byTag, byTagList_map_other, byTagList_map_same]

/-- Every field of every record of the table is plain text, so the markup of
lines 283-329 parses to the tree `renderDetail` gives. -/
theorem projectData_plain : projectData.all (fun kv => kv.2.plain) = true := by
  decide

/-- A key of the table resolves to the record stored under it. -/
theorem projectDataGet_own (key : String) (h : key ∈ ["1", "2", "3"]) :
    ∃ project, projectData.lookup key = some project ∧ projectDataGet key = .own project := by
  simp only [List.mem_cons, List.mem_singleton, List.not_mem_nil, or_false] at h
  rcases h with h | h | h <;> subst h
  · exact ⟨project1, rfl, by simp [projectDataGet, projectData, List.lookup]⟩
  · exact ⟨project2, rfl, by simp [projectDataGet, projectData, List.lookup]⟩
  · exact ⟨project3, rfl, by simp [projectDataGet, projectData, List.lookup]⟩

/-- C3: for a project id that is a key of the table (`1`, `2` or `3`, as a
number or as a string), `openModal` succeeds, replaces the modal body by the
detail view of the record stored under that key and shows the modal. The
view's title is the record's title; it holds the description, the image
path, both URLs, the challenges and the results; its tag list and its
feature list have one entry per technology and per feature, in order. -/
theorem openModal_known_renders (projectId : ProjectId) (s : Page)
    (h : projectId.toPropertyKey ∈ ["1", "2", "3"]) :
    ∃ project s',
      projectData.lookup projectId.toPropertyKey = some project ∧
      openModal projectId s = .ok s' ∧
      s'.modalDisplay = "block" ∧
      s'.modalBody = renderDetail project ∧
      (byClassList "project-detail-title" s'.modalBody).map Html.textContent
        = [project.title] ∧
      (byClassList "project-detail-description" s'.modalBody).map Html.textContent
        = [project.description] ∧
      (byTagList "img" s'.modalBody).map (Html.getAttribute "src")
        = [some project.image] ∧
      (byTagList "a" s'.modalBody).map (Html.getAttribute "href")
        = [some project.liveUrl, some project.githubUrl] ∧
      (byTagList "p" s'.modalBody).map Html.textContent
        = [project.description, project.challenges, project.results] ∧
      (((byClassList "tech-tags" s'.modalBody).flatMap Html.children).map
          Html.textContent = project.technologies ∧
        (byClassList "tech-tag" s'.modalBody).map Html.textContent
          = project.technologies) ∧
      (((byClassList "features-list" s'.modalBody).flatMap Html.children).map
          Html.textContent = project.features ∧
        (byTagList "li" s'.modalBody).map Html.textContent = project.features) := by
  obtain ⟨project, hl, hg⟩ := projectDataGet_own _ h
  refine ⟨project, { s with
      modalBody := renderDetail project
      modalDisplay := "block"
      bodyOverflow := "hidden" }, hl, ?_, rfl, rfl, renderDetail_queries project⟩
  simp [openModal, hg]

/-- Witness of C3: `openModal(2)` on a page whose modal is hidden and holds
another view. -/
theorem openModal_known_renders_witness :
    (ProjectId.num 2).toPropertyKey ∈ ["1", "2", "3"] ∧
    ∃ project s',
      projectData.lookup (ProjectId.num 2).toPropertyKey = some project ∧
      openModal (.num 2) (initialPage exactQuery [] [] (renderDetail project1) 0) = .ok s' ∧
      s'.modalDisplay = "block" ∧
      s'.modalBody = renderDetail project ∧
      (byClassList "project-detail-title" s'.modalBody).map Html.textContent
        = [project.title] ∧
      (byClassList "project-detail-description" s'.modalBody).map Html.textContent
        = [project.description] ∧
      (byTagList "img" s'.modalBody).map (Html.getAttribute "src")
        = [some project.image] ∧
      (byTagList "a" s'.modalBody).map (Html.getAttribute "href")
        = [some project.liveUrl, some project.githubUrl] ∧
      (byTagList "p" s'.modalBody).map Html.textContent
        = [project.description, project.challenges, project.results] ∧
      (((byClassList "tech-tags" s'.modalBody).flatMap Html.children).map
          Html.textContent = project.technologies ∧
        (byClassList "tech-tag" s'.modalBody).map Html.textContent
          = project.technologies) ∧
      (((byClassList "features-list" s'.modalBody).flatMap Html.children).map
          Html.textContent = project.features ∧
        (byTagList "li" s'.modalBody).map Html.textContent = project.features) :=
  ⟨by decide,
   openModal_known_renders (.num 2) (initialPage exactQuery [] [] (renderDetail project1) 0) (by decide)⟩

/-- The table has no keys besides `1`, `2` and `3`. -/
theorem projectData_keys : projectData.map Prod.fst = ["1", "2", "3"] := rfl

/-- An id whose key is neither in the table nor inherited from
`Object.prototype` makes `openModal` return without touching the page. -/
theorem openModal_undefined_noop (projectId : ProjectId) (s : Page)
    (hk : projectId.toPropertyKey ∉ ["1", "2", "3"])
    (hp : projectId.toPropertyKey ∉ objectPrototypeKeys) :
    openModal projectId s = .ok s := by
  have hl : projectData.lookup projectId.toPropertyKey = none := by
    simp only [List.mem_cons, List.mem_singleton, List.not_mem_nil, or_false, not_or] at hk
    obtain ⟨h1, h2, h3⟩ := hk
    simp [projectData, List.lookup, beq_eq_false_iff_ne.mpr h1, beq_eq_false_iff_ne.mpr h2,
      beq_eq_false_iff_ne.mpr h3]
  simp [openModal, projectDataGet, hl, hp]

/-- C4 (the code at the failing input): `constructor` is not a key of the
table, yet `openModal("constructor")` does not return silently: the guard of
line 279 lets the inherited property through and the template throws. -/
theorem openModal_constructor_throws (s : Page) :
    (ProjectId.str "constructor").toPropertyKey ∉ projectData.map Prod.fst ∧
    openModal (.str "constructor") s =
      .error (.typeError "Cannot read properties of undefined (reading 'map')") ∧
    openProject (.str "constructor") s =
      .error (.typeError "Cannot read properties of undefined (reading 'map')") := by
  refine ⟨by decide, ?_, ?_⟩ <;>
    simp [openProject, openModal, projectDataGet, projectData, List.lookup,
      ProjectId.toPropertyKey, objectPrototypeKeys]

/-! ## Modal visibility and the scroll lock -/

/-- C5 (the code at the failing input): a click on the details button of
project `1`, outside the navigation, on any page. `openModal` shows the modal
and locks the scroll; the same click then reaches the listener on `document`,
whose `closeMenu` clears `body.style.overflow`: the modal is visible and the
scroll is not locked. -/
theorem details_click_leaves_scroll_unlocked (query : NavLinkQuery) (s : Page) :
    (handleEvent query s (.click (.detailsButton (.str "1")) false)).modalDisplay = "block" ∧
    (handleEvent query s (.click (.detailsButton (.str "1")) false)).bodyOverflow = "" ∧
    (targetListener (.detailsButton (.str "1")) s).bodyOverflow = "hidden" := by
  simp [handleEvent, documentClickListener, targetListener, openModal, projectDataGet,
    projectData, List.lookup, ProjectId.toPropertyKey, closeMenu]

/-- A click inside the open modal's content has the same effect: only the
listener on `document` runs, and it clears the lock. -/
theorem content_click_leaves_scroll_unlocked (query : NavLinkQuery) (s : Page)
    (h : s.modalDisplay = "block") :
    (handleEvent query s (.click .other false)).modalDisplay = "block" ∧
    (handleEvent query s (.click .other false)).bodyOverflow = "" := by
  simp [handleEvent, documentClickListener, targetListener, closeMenu, h]

/-! ## ContactForm: the submit button after a request settles -/

/-- One submission that begins while no other is in flight: once it has
settled the button is enabled and shows the text it showed before. -/
theorem submit_settle_restores (s : FormState) (o : Bool) (h : s.pending = []) :
    (runForm s [.submit, .settle o]).button = ⟨s.button.textContent, false⟩ ∧
    (runForm s [.submit, .settle o]).pending = [] := by
  cases o <;>
    simp [runForm, formStep, handleSubmitBegin, handleSubmitResume, h]

theorem runForm_append (s : FormState) (xs ys : List FormEvent) :
    runForm s (xs ++ ys) = runForm (runForm s xs) ys := by
  simp [runForm, List.foldl_append]

theorem sequentialSubmits_cons (o : Bool) (os : List Bool) :
    sequentialSubmits (o :: os) = [.submit, .settle o] ++ sequentialSubmits os := by
  simp [sequentialSubmits]

/-- Sequential submissions keep the button text and leave nothing in flight. -/
theorem sequentialSubmits_text (outcomes : List Bool) (s : FormState) (h : s.pending = []) :
    (runForm s (sequentialSubmits outcomes)).button.textContent = s.button.textContent ∧
    (runForm s (sequentialSubmits outcomes)).pending = [] := by
  induction outcomes generalizing s with
  | nil => exact ⟨rfl, h⟩
  | cons o os ih =>
    rw [sequentialSubmits_cons, runForm_append]
    obtain ⟨hb, hp⟩ := submit_settle_restores s o h
    obtain ⟨h1, h2⟩ := ih (runForm s [.submit, .settle o]) hp
    exact ⟨by rw [h1, hb], h2⟩

/-- C6 (as stated, refuted): a second `submit` event arrives while the first
request is in flight. It records the spinner text as its original text, so
when it settles the button shows the spinner text, not the label. -/
theorem overlapping_submit_loses_label :
    ¬ ((runForm ⟨⟨"Enviar Mensagem", false⟩, [], [], []⟩
          [.submit, .submit, .settle true, .settle true]).button.disabled = false ∧
       (runForm ⟨⟨"Enviar Mensagem", false⟩, [], [], []⟩
          [.submit, .submit, .settle true, .settle true]).button.textContent
         = "Enviar Mensagem") := by
  decide

/-- C6 (amended): in a sequence of submissions each of which begins after the
previous one has settled, starting with none in flight, once the last request
has settled (resolved or rejected) the button is enabled and shows the text
it showed before the first submission; every earlier submission is the last
of a shorter such sequence. -/
theorem sequentialSubmits_restore_button (s : FormState) (outcomes : List Bool) (o : Bool)
    (h : s.pending = []) :
    (runForm s (sequentialSubmits (outcomes ++ [o]))).button
      = ⟨s.button.textContent, false⟩ ∧
    (runForm s (sequentialSubmits (outcomes ++ [o]))).pending = [] := by
  have hs : sequentialSubmits (outcomes ++ [o]) =
      sequentialSubmits outcomes ++ [.submit, .settle o] := by
    simp [sequentialSubmits]
  rw [hs, runForm_append]
  obtain ⟨h1, h2⟩ := sequentialSubmits_text outcomes s h
  obtain ⟨hb, hp⟩ := submit_settle_restores (runForm s (sequentialSubmits outcomes)) o h2
  exact ⟨by rw [hb, h1], hp⟩

/-- Witness of C6 (amended): a rejected submission followed by a resolved one. -/
theorem sequentialSubmits_restore_button_witness :
    (⟨⟨"Enviar Mensagem", false⟩, [⟨"email", "a@b.c", ""⟩], [], []⟩ : FormState).pending = [] ∧
    (runForm ⟨⟨"Enviar Mensagem", false⟩, [⟨"email", "a@b.c", ""⟩], [], []⟩
        (sequentialSubmits ([false] ++ [true]))).button
      = ⟨"Enviar Mensagem", false⟩ ∧
    (runForm ⟨⟨"Enviar Mensagem", false⟩, [⟨"email", "a@b.c", ""⟩], [], []⟩
        (sequentialSubmits ([false] ++ [true]))).pending = [] :=
  ⟨rfl, sequentialSubmits_restore_button
    ⟨⟨"Enviar Mensagem", false⟩, [⟨"email", "a@b.c", ""⟩], [], []⟩ [false] true rfl⟩

/-! ## ThemeToggle -/

theorem toggleTimes_succ (n : Nat) (s : ThemeState) :
    toggleTimes (n + 1) s = toggleTheme (toggleTimes n s) := by
  simp [toggleTimes, Function.iterate_succ_apply']

theorem construct_theme (stored : Option String) (vars : ThemeVars) :
    (ThemeState.construct stored vars).theme = storedOrLight stored := by
  simp only [ThemeState.construct, ThemeState.init, createToggleButton, applyTheme]
  split <;> rfl

theorem construct_toggleButton (stored : Option String) (vars : ThemeVars) :
    (ThemeState.construct stored vars).toggleButton = some moonIcon := rfl

theorem toggleTheme_toggleButton_isSome (s : ThemeState) (h : s.toggleButton.isSome) :
    (toggleTheme s).toggleButton.isSome := by
  unfold toggleTheme applyTheme
  cases hb : s.toggleButton with
  | none => simp [hb] at h
  | some b => by_cases ht : s.theme = "light" <;> simp [ht, hb]

/-- One `toggleTheme` on an instance that has its button leaves theme,
palette and icon coherent, whatever the theme was. -/
theorem toggleTheme_coherent (s : ThemeState) (h : s.toggleButton.isSome) :
    (toggleTheme s).Coherent := by
  unfold ThemeState.Coherent toggleTheme applyTheme
  cases hb : s.toggleButton with
  | none => simp [hb] at h
  | some b => by_cases ht : s.theme = "light" <;> simp [ht, hb]

/-- Two `toggleTheme` calls restore theme and palette whenever the palette in
force is the one of the theme. -/
theorem toggleTheme_twice (s : ThemeState)
    (h : (s.theme = "light" ∧ s.vars = lightVars) ∨ (s.theme = "dark" ∧ s.vars = darkVars)) :
    (toggleTheme (toggleTheme s)).theme = s.theme ∧
    (toggleTheme (toggleTheme s)).vars = s.vars := by
  rcases h with ⟨ht, hv⟩ | ⟨ht, hv⟩ <;>
    simp [toggleTheme, applyTheme, ht, hv]

theorem toggleTimes_toggleButton_isSome (stored : Option String) (vars : ThemeVars) (n : Nat) :
    (toggleTimes n (ThemeState.construct stored vars)).toggleButton.isSome := by
  induction n with
  | zero => simp [toggleTimes, construct_toggleButton]
  | succ n ih =>
    rw [toggleTimes_succ]
    exact toggleTheme_toggleButton_isSome _ ih

theorem toggleTimes_succ_coherent (stored : Option String) (vars : ThemeVars) (n : Nat) :
    (toggleTimes (n + 1) (ThemeState.construct stored vars)).Coherent := by
  rw [toggleTimes_succ]
  exact toggleTheme_coherent _ (toggleTimes_toggleButton_isSome stored vars n)

/-- C7 (as stated, refuted): the entry `blue` is neither absent nor empty, so
the constructor keeps it: the theme held is `blue`. -/
theorem construct_keeps_unknown_theme :
    ¬ ((ThemeState.construct (some "blue") ⟨none, none, none, none⟩).theme = "light" ∨
       (ThemeState.construct (some "blue") ⟨none, none, none, none⟩).theme = "dark") := by
  decide

/-- C7 (amended): for every content of the entry, the theme held after
construction is `light` when the entry is absent or the empty string and is
the stored string itself otherwise; after every `toggleTheme` it is exactly
`light` or exactly `dark`. -/
theorem theme_after_construct_and_toggle (stored : Option String) (vars : ThemeVars) :
    (ThemeState.construct stored vars).theme =
        (if stored = none ∨ stored = some "" then "light" else stored.getD "") ∧
    ∀ n, (toggleTimes (n + 1) (ThemeState.construct stored vars)).theme = "light" ∨
         (toggleTimes (n + 1) (ThemeState.construct stored vars)).theme = "dark" := by
  constructor
  · rw [construct_theme]
    cases stored with
    | none => simp [storedOrLight]
    | some v => by_cases hv : v = "" <;> simp [storedOrLight, hv]
  · intro n
    rcases toggleTimes_succ_coherent stored vars n with ⟨ht, _⟩ | ⟨ht, _⟩
    · exact Or.inl ht
    · exact Or.inr ht

/-- C8 (as stated, refuted): with the entry `blue` the constructor applies
the light palette; the first toggle moves the theme to `light`, the second
to `dark`, and the variables end on the dark palette. -/
theorem toggle_twice_changes_vars_unknown_theme :
    ¬ ((toggleTheme (toggleTheme
          (ThemeState.construct (some "blue") ⟨none, none, none, none⟩))).vars =
        (ThemeState.construct (some "blue") ⟨none, none, none, none⟩).vars) := by
  decide

/-- The palette after construction is the dark one for the entry `dark` and
the light one for every other content. -/
theorem construct_vars (stored : Option String) (vars : ThemeVars) :
    (ThemeState.construct stored vars).vars =
      if stored = some "dark" then darkVars else lightVars := by
  cases stored with
  | none => simp [ThemeState.construct, ThemeState.init, createToggleButton, applyTheme,
      storedOrLight]
  | some v =>
    by_cases hd : v = "dark"
    · subst hd
      simp [ThemeState.construct, ThemeState.init, createToggleButton, applyTheme,
        storedOrLight]
    · by_cases he : v = ""
      · subst he
        simp [ThemeState.construct, ThemeState.init, createToggleButton, applyTheme,
          storedOrLight]
      · simp [ThemeState.construct, ThemeState.init, createToggleButton, applyTheme,
          storedOrLight, hd, he]

/-- C8 (amended): when the entry at startup is absent, empty, `light` or
`dark`, or when at least one toggle has already happened, two further calls
of `toggleTheme` leave the four theme variables as they were. -/
theorem toggle_twice_restores_vars (stored : Option String) (vars : ThemeVars) (n : Nat)
    (h : stored = none ∨ stored = some "" ∨ stored = some "light" ∨ stored = some "dark" ∨
      0 < n) :
    (toggleTimes (n + 2) (ThemeState.construct stored vars)).vars =
      (toggleTimes n (ThemeState.construct stored vars)).vars := by
  rw [toggleTimes_succ, toggleTimes_succ]
  cases n with
  | succ m =>
    refine (toggleTheme_twice _ ?_).2
    rcases toggleTimes_succ_coherent stored vars m with ⟨ht, hv, _⟩ | ⟨ht, hv, _⟩
    · exact Or.inl ⟨ht, hv⟩
    · exact Or.inr ⟨ht, hv⟩
  | zero =>
    have h0 : toggleTimes 0 (ThemeState.construct stored vars) =
        ThemeState.construct stored vars := rfl
    rw [h0]
    refine (toggleTheme_twice _ ?_).2
    rcases h with h | h | h | h | h
    · subst h
      exact Or.inl ⟨rfl, by simp [construct_vars]⟩
    · subst h
      exact Or.inl ⟨by simp [construct_theme, storedOrLight], by simp [construct_vars]⟩
    · subst h
      exact Or.inl ⟨by simp [construct_theme, storedOrLight], by simp [construct_vars]⟩
    · subst h
      exact Or.inr ⟨by simp [construct_theme, storedOrLight], by simp [construct_vars]⟩
    · exact absurd h (by decide)

/-- Witness of C8 (amended): the entry `dark`, before any toggle. -/
theorem toggle_twice_restores_vars_witness :
    ((some "dark" : Option String) = none ∨ (some "dark" : Option String) = some "" ∨
      (some "dark" : Option String) = some "light" ∨
      (some "dark" : Option String) = some "dark" ∨ 0 < 0) ∧
    (toggleTimes (0 + 2) (ThemeState.construct (some "dark") ⟨none, none, none, none⟩)).vars =
      (toggleTimes 0 (ThemeState.construct (some "dark") ⟨none, none, none, none⟩)).vars :=
  ⟨by decide,
   toggle_twice_restores_vars (some "dark") ⟨none, none, none, none⟩ 0 (by decide)⟩

/-- C9 (the code at the failing input): with the entry `dark`, the
constructor runs `applyTheme` while the button does not exist yet and then
creates the button with the moon icon: the theme is dark, the palette is the
dark one, and the icon is the moon. -/
theorem construct_dark_shows_moon (vars : ThemeVars) :
    (ThemeState.construct (some "dark") vars).theme = "dark" ∧
    (ThemeState.construct (some "dark") vars).vars = darkVars ∧
    (ThemeState.construct (some "dark") vars).toggleButton = some moonIcon ∧
    moonIcon ≠ sunIcon := by
  refine ⟨?_, ?_, rfl, by decide⟩ <;>
    simp [ThemeState.construct, ThemeState.init, createToggleButton, applyTheme,
      storedOrLight]

/-- After every `toggleTheme` the icon agrees with the theme: the moon while
light, the sun while dark. -/
theorem icon_after_toggle (stored : Option String) (vars : ThemeVars) (n : Nat) :
    ((toggleTimes (n + 1) (ThemeState.construct stored vars)).theme = "light" ∧
      (toggleTimes (n + 1) (ThemeState.construct stored vars)).toggleButton = some moonIcon) ∨
    ((toggleTimes (n + 1) (ThemeState.construct stored vars)).theme = "dark" ∧
      (toggleTimes (n + 1) (ThemeState.construct stored vars)).toggleButton = some sunIcon) := by
  rcases toggleTimes_succ_coherent stored vars n with ⟨ht, _, hb⟩ | ⟨ht, _, hb⟩
  · exact Or.inl ⟨ht, hb⟩
  · exact Or.inr ⟨ht, hb⟩

/-! ## throttle: how far apart the invocations are -/

theorem timeoutDelay_eq (limit : Nat) (h : limit < 2 ^ 31) : timeoutDelay limit = limit := by
  have h2 : limit % 2 ^ 32 = limit := Nat.mod_eq_of_lt (by omega)
  unfold timeoutDelay
  rw [h2, if_pos h]

/-- A call of the wrapper while `inThrottle` is set does nothing. -/
theorem wrapperCall_closed {α : Type} (limit time : Nat) (c : CallScript α)
    (s : ThrottleState α) (h : s.inThrottle = true) :
    wrapperCall limit time c s = s := by
  cases c with
  | mk args inner throws => simp [wrapperCall, h]

/-- A call of the wrapper while `inThrottle` is not set, for a callback that
returns and calls nothing: one invocation, then the flag and the timer. -/
theorem wrapperCall_open {α : Type} (limit time : Nat) (c : CallScript α)
    (s : ThrottleState α) (h : s.inThrottle = false) (ht : c.throws = false)
    (hi : c.inner = []) :
    wrapperCall limit time c s =
      { inThrottle := true
        timers := s.timers ++ [time + timeoutDelay limit]
        invocations := s.invocations ++ [(time, c.args)] } := by
  cases c with
  | mk args inner throws =>
    simp only [CallScript.throws, CallScript.inner] at ht hi
    subst ht hi
    simp [wrapperCall, wrapperCalls, h, CallScript.args]

mutual
/-- A call of the wrapper never removes an invocation from the log. -/
theorem wrapperCall_mem {α : Type} (limit time : Nat) (inv : Nat × α) :
    ∀ (c : CallScript α) (s : ThrottleState α), inv ∈ s.invocations →
      inv ∈ (wrapperCall limit time c s).invocations
  | .mk args inner throws, s, h => by
    unfold wrapperCall
    by_cases hb : s.inThrottle = true
    · simpa [hb] using h
    · have h1 := wrapperCalls_mem limit time inv inner
        { s with invocations := s.invocations ++ [(time, args)] }
        (List.mem_append_left _ h)
      cases throws <;> simpa [hb] using h1
/-- Calls of the wrapper never remove an invocation from the log. -/
theorem wrapperCalls_mem {α : Type} (limit time : Nat) (inv : Nat × α) :
    ∀ (cs : List (CallScript α)) (s : ThrottleState α), inv ∈ s.invocations →
      inv ∈ (wrapperCalls limit time cs s).invocations
  | [], s, h => by simpa [wrapperCalls] using h
  | c :: cs, s, h => by
    unfold wrapperCalls
    exact wrapperCalls_mem limit time inv cs _ (wrapperCall_mem limit time inv c s h)
end

theorem throttleCall_mem {α : Type} (limit : Nat) (s : ThrottleState α)
    (c : ThrottleCall α) (inv : Nat × α) (h : inv ∈ s.invocations) :
    inv ∈ (throttleCall limit s c).invocations :=
  wrapperCall_mem limit c.time inv c.script _ h

theorem foldl_throttleCall_mem {α : Type} (limit : Nat) (calls : List (ThrottleCall α))
    (s : ThrottleState α) (inv : Nat × α) (h : inv ∈ s.invocations) :
    inv ∈ (calls.foldl (throttleCall limit) s).invocations := by
  induction calls generalizing s with
  | nil => exact h
  | cons c cs ih => exact ih _ (throttleCall_mem limit s c inv h)

/-- A call made no earlier than `now`, whose callback behaves if it is
invoked, keeps the wrapper paced. -/
theorem throttleCall_paced {α : Type} (limit now : Nat) (s : ThrottleState α)
    (c : ThrottleCall α) (hlim : limit < 2 ^ 31) (hn : now ≤ c.time)
    (hwb : (s.fireTimers c.time c.beforeTimers).inThrottle = false →
      c.script.throws = false ∧ c.script.inner = [])
    (h : s.Paced limit now) :
    (throttleCall limit s c).Paced limit c.time := by
  obtain ⟨hp, hcase⟩ := h
  have hinvoke : ∀ s1 : ThrottleState α, s.fireTimers c.time c.beforeTimers = s1 →
      s1.inThrottle = false → s1.timers = [] → s1.invocations = s.invocations →
      (∀ inv ∈ s.invocations, inv.1 + limit ≤ c.time) →
      (throttleCall limit s c).Paced limit c.time := by
    intro s1 hs1 hf1 ht1 hi1 hall
    obtain ⟨hthrows, hinner⟩ := hwb (by rw [hs1]; exact hf1)
    have hstep : throttleCall limit s c =
        { inThrottle := true, timers := [c.time + limit],
          invocations := s.invocations ++ [(c.time, c.script.args)] } := by
      unfold throttleCall
      rw [hs1, wrapperCall_open limit c.time c.script s1 hf1 hthrows hinner,
        timeoutDelay_eq limit hlim, ht1, hi1]
      rfl
    rw [hstep]
    refine ⟨?_, Or.inr ⟨rfl, c.time + limit, rfl, by omega, ?_, ?_⟩⟩
    · refine List.pairwise_append.mpr ⟨hp, List.pairwise_singleton _ _, ?_⟩
      intro a ha b hb
      simp only [List.mem_singleton] at hb
      subst hb
      exact hall a ha
    · exact ⟨(c.time, c.script.args), by simp, rfl⟩
    · intro inv hinv
      simp only [List.mem_append, List.mem_singleton] at hinv
      rcases hinv with hinv | hinv
      · have := hall inv hinv
        omega
      · subst hinv
        exact le_refl _
  rcases hcase with ⟨hf, ht, hall⟩ | ⟨hf, due, ht, hle, ⟨inv0, hin0, hdue⟩, hall⟩
  · refine hinvoke _ rfl ?_ ?_ rfl ?_
    · simp [ThrottleState.fireTimers, hf, ht]
    · simp [ThrottleState.fireTimers, ht]
    · intro inv hinv
      have := hall inv hinv
      omega
  · by_cases hfire : firedBy c.time c.beforeTimers due = true
    · have hdle : due ≤ c.time := by
        simp only [firedBy, Bool.or_eq_true, Bool.and_eq_true, decide_eq_true_eq] at hfire
        rcases hfire with h1 | ⟨h1, _⟩ <;> omega
      refine hinvoke _ rfl ?_ ?_ rfl ?_
      · simp [ThrottleState.fireTimers, ht, hfire]
      · simp [ThrottleState.fireTimers, ht, hfire]
      · intro inv hinv
        have := hall inv hinv
        omega
    · have hcle : c.time ≤ due := by
        simp only [firedBy, Bool.or_eq_true, Bool.and_eq_true, decide_eq_true_eq,
          not_or] at hfire
        omega
      have hs1 : s.fireTimers c.time c.beforeTimers = s := by
        cases s with
        | mk i t v =>
          simp only at hf ht
          subst hf ht
          simp [ThrottleState.fireTimers, hfire]
      have hstep : throttleCall limit s c = s := by
        unfold throttleCall
        rw [hs1]
        exact wrapperCall_closed limit c.time c.script s hf
      rw [hstep]
      exact ⟨hp, Or.inr ⟨hf, due, ht, hcle, ⟨inv0, hin0, hdue⟩, hall⟩⟩

/-- The untouched wrapper is paced at any time. -/
theorem initial_paced (α : Type) (limit now : Nat) :
    (ThrottleState.initial α).Paced limit now :=
  ⟨List.Pairwise.nil, Or.inl ⟨rfl, rfl, fun _ h => absurd h (List.not_mem_nil _)⟩⟩

theorem runThrottle_append_singleton {α : Type} (limit : Nat) (pre : List (ThrottleCall α))
    (c : ThrottleCall α) :
    runThrottle limit (pre ++ [c]) = throttleCall limit (runThrottle limit pre) c := by
  simp [runThrottle, List.foldl_append]

theorem WellBehaved.prefix {α : Type} {limit : Nat} {pre post : List (ThrottleCall α)}
    (h : WellBehaved limit (pre ++ post)) : WellBehaved limit pre := by
  intro p c q hsplit hinv
  exact h p c (q ++ post) (by rw [hsplit]; simp) hinv

/-- Calls at non-decreasing times whose callback behaves whenever it is
invoked keep the wrapper paced; the clock ends at zero or at the time of one
of the calls. -/
theorem runThrottle_paced {α : Type} (limit : Nat) (hlim : limit < 2 ^ 31)
    (calls : List (ThrottleCall α))
    (hs : calls.Pairwise (fun a b => a.time ≤ b.time))
    (hwb : WellBehaved limit calls) :
    ∃ last, (runThrottle limit calls).Paced limit last ∧
      (last = 0 ∨ ∃ c ∈ calls, last = c.time) := by
  induction calls using List.reverseRecOn with
  | nil => exact ⟨0, initial_paced α limit 0, Or.inl rfl⟩
  | append_singleton pre c ih =>
    obtain ⟨hpre, _, hcross⟩ := List.pairwise_append.mp hs
    obtain ⟨e, he, hwhere⟩ := ih hpre hwb.prefix
    have hle : e ≤ c.time := by
      rcases hwhere with hw | ⟨d, hd, hw⟩
      · omega
      · rw [hw]
        exact hcross d hd c (by simp)
    refine ⟨c.time, ?_, Or.inr ⟨c, by simp, rfl⟩⟩
    rw [runThrottle_append_singleton]
    exact throttleCall_paced limit e _ c hlim hle (hwb pre c [] rfl) he

/-- A paced wrapper called when every earlier invocation lies more than
`limit` back, or `limit` back with the timers due at the very time of the
call fired, gets to invoke the callback. -/
theorem paced_invokes {α : Type} (limit now : Nat) (s : ThrottleState α)
    (c : ThrottleCall α) (h : s.Paced limit now)
    (hq : ∀ inv ∈ s.invocations,
      inv.1 + limit < c.time ∨ (inv.1 + limit ≤ c.time ∧ c.beforeTimers = false)) :
    (s.fireTimers c.time c.beforeTimers).inThrottle = false ∧
    (s.fireTimers c.time c.beforeTimers).timers = [] := by
  obtain ⟨_, hcase⟩ := h
  rcases hcase with ⟨hf, ht, _⟩ | ⟨hf, due, ht, _, ⟨inv0, hin0, hdue⟩, _⟩
  · simp [ThrottleState.fireTimers, hf, ht]
  · have hfire : firedBy c.time c.beforeTimers due = true := by
      simp only [firedBy, Bool.or_eq_true, Bool.and_eq_true, decide_eq_true_eq]
      rcases hq inv0 hin0 with h1 | ⟨h1, h2⟩
      · left
        omega
      · by_cases hlt : due < c.time
        · exact Or.inl hlt
        · exact Or.inr ⟨by omega, by simp [h2]⟩
    simp [ThrottleState.fireTimers, ht, hfire]

/-- C11 (as stated, refuted), with `limit = 100` unless said otherwise.
A callback that throws: the exception leaves the wrapper before `inThrottle`
is set, and the call one millisecond later invokes it again. A callback that
calls the wrapper and returns: the inner call finds `inThrottle` unset and
invokes the callback a second time at the same instant. An interval of
`2 ^ 31`: `setTimeout` takes it as a negative delay, the reset timer is due at
once, and the call one millisecond later invokes the callback. -/
theorem throttle_not_limited :
    ¬ ((runThrottle 100
          [⟨0, false, .mk () [] true⟩, ⟨1, false, .mk () [] true⟩]).invocations.Pairwise
        (fun a b => a.1 + 100 ≤ b.1)) ∧
    ¬ ((runThrottle 100
          [⟨0, false, .mk () [.mk () [] false] false⟩]).invocations.Pairwise
        (fun a b => a.1 + 100 ≤ b.1)) ∧
    ¬ ((runThrottle (2 ^ 31)
          [⟨0, false, .mk () [] false⟩, ⟨1, false, .mk () [] false⟩]).invocations.Pairwise
        (fun a b => a.1 + 2 ^ 31 ≤ b.1)) := by
  refine ⟨?_, ?_, ?_⟩ <;> decide

/-- C11 (amended): for every callback that, each time it is invoked, returns
normally and has not itself called the wrapper, every whole interval `limit`
below `2 ^ 31` and every sequence of calls of the wrapper at non-decreasing
times, any two invocations of the
callback are at least `limit` milliseconds apart; and a call made when every
earlier invocation lies more than `limit` milliseconds back, or exactly
`limit` back with the reset timer fired before the call, invokes the
callback at that time with that call's arguments. -/
theorem throttle_rate_limit {α : Type} (limit : Nat) (calls : List (ThrottleCall α))
    (hlim : limit < 2 ^ 31)
    (hs : calls.Pairwise (fun a b => a.time ≤ b.time))
    (hwb : WellBehaved limit calls) :
    (runThrottle limit calls).invocations.Pairwise (fun a b => a.1 + limit ≤ b.1) ∧
    ∀ pre c post, calls = pre ++ c :: post →
      (∀ inv ∈ (runThrottle limit pre).invocations,
        inv.1 + limit < c.time ∨ (inv.1 + limit ≤ c.time ∧ c.beforeTimers = false)) →
      (runThrottle limit (pre ++ [c])).invocations =
          (runThrottle limit pre).invocations ++ [(c.time, c.script.args)] ∧
        (c.time, c.script.args) ∈ (runThrottle limit calls).invocations := by
  constructor
  · obtain ⟨e, he, _⟩ := runThrottle_paced limit hlim calls hs hwb
    exact he.1
  · intro pre c post hsplit hq
    subst hsplit
    obtain ⟨hpre, _, _⟩ := List.pairwise_append.mp hs
    obtain ⟨e, he, _⟩ := runThrottle_paced limit hlim pre hpre hwb.prefix
    obtain ⟨hopen, _⟩ := paced_invokes limit e (runThrottle limit pre) c he hq
    obtain ⟨hthrows, hinner⟩ := hwb pre c post rfl hopen
    have h1 : (runThrottle limit (pre ++ [c])).invocations =
        (runThrottle limit pre).invocations ++ [(c.time, c.script.args)] := by
      rw [runThrottle_append_singleton]
      unfold throttleCall
      rw [wrapperCall_open limit c.time c.script _ hopen hthrows hinner]
      rfl
    refine ⟨h1, ?_⟩
    have h2 : runThrottle limit (pre ++ c :: post) =
        post.foldl (throttleCall limit) (runThrottle limit (pre ++ [c])) := by
      simp [runThrottle, List.foldl_append]
    rw [h2]
    exact foldl_throttleCall_mem limit post _ _ (by rw [h1]; simp)

/-- Scroll events at 0, 40, 100 and 250 ms with `limit = 100`; only on the
dropped call at 40 would the callback throw and call the wrapper. -/
theorem scrollCalls_wellBehaved :
    WellBehaved 100
      [(⟨0, false, .mk 10 [] false⟩ : ThrottleCall Nat),
       ⟨40, false, .mk 11 [.mk 99 [] false] true⟩,
       ⟨100, false, .mk 12 [] false⟩, ⟨250, false, .mk 13 [] false⟩] := by
  intro pre c post h hinv
  rcases pre with _ | ⟨p0, _ | ⟨p1, _ | ⟨p2, _ | ⟨p3, pre⟩⟩⟩⟩ <;>
    simp only [List.nil_append, List.cons_append, List.cons.injEq] at h
  · obtain ⟨rfl, _⟩ := h
    exact ⟨rfl, rfl⟩
  · obtain ⟨rfl, rfl, _⟩ := h
    exact absurd hinv (by unfold invokes; decide)
  · obtain ⟨rfl, rfl, rfl, _⟩ := h
    exact ⟨rfl, rfl⟩
  · obtain ⟨rfl, rfl, rfl, rfl, _⟩ := h
    exact ⟨rfl, rfl⟩
  · obtain ⟨_, _, _, _, h5⟩ := h
    cases pre <;> simp at h5

/-- Witness of C11 (amended): the callback runs at 0, 100 and 250; the call
at 100 arrives exactly `limit` after the first invocation, the reset timer
fired. -/
theorem throttle_rate_limit_witness :
    (runThrottle 100
        [(⟨0, false, .mk 10 [] false⟩ : ThrottleCall Nat),
         ⟨40, false, .mk 11 [.mk 99 [] false] true⟩,
         ⟨100, false, .mk 12 [] false⟩, ⟨250, false, .mk 13 [] false⟩]).invocations
      = [(0, 10), (100, 12), (250, 13)] ∧
    ((runThrottle 100
        [(⟨0, false, .mk 10 [] false⟩ : ThrottleCall Nat),
         ⟨40, false, .mk 11 [.mk 99 [] false] true⟩,
         ⟨100, false, .mk 12 [] false⟩, ⟨250, false, .mk 13 [] false⟩]).invocations.Pairwise
        (fun a b => a.1 + 100 ≤ b.1) ∧
      ∀ pre c post,
        [(⟨0, false, .mk 10 [] false⟩ : ThrottleCall Nat),
         ⟨40, false, .mk 11 [.mk 99 [] false] true⟩,
         ⟨100, false, .mk 12 [] false⟩, ⟨250, false, .mk 13 [] false⟩] = pre ++ c :: post →
        (∀ inv ∈ (runThrottle 100 pre).invocations,
          inv.1 + 100 < c.time ∨ (inv.1 + 100 ≤ c.time ∧ c.beforeTimers = false)) →
        (runThrottle 100 (pre ++ [c])).invocations =
            (runThrottle 100 pre).invocations ++ [(c.time, c.script.args)] ∧
          (c.time, c.script.args) ∈ (runThrottle 100
            [(⟨0, false, .mk 10 [] false⟩ : ThrottleCall Nat),
             ⟨40, false, .mk 11 [.mk 99 [] false] true⟩,
             ⟨100, false, .mk 12 [] false⟩,
             ⟨250, false, .mk 13 [] false⟩]).invocations) :=
  ⟨by decide,
   throttle_rate_limit 100
     [(⟨0, false, .mk 10 [] false⟩ : ThrottleCall Nat),
      ⟨40, false, .mk 11 [.mk 99 [] false] true⟩,
      ⟨100, false, .mk 12 [] false⟩, ⟨250, false, .mk 13 [] false⟩]
     (by decide) (by decide) scrollCalls_wellBehaved⟩

/-- The tie at the reset timer's due time: a call made at that very time
before the timer fires is dropped, one made after it invokes the callback. -/
theorem throttle_tie_example :
    (runThrottle 100
        [(⟨0, false, .mk 10 [] false⟩ : ThrottleCall Nat),
         ⟨100, true, .mk 11 [] false⟩]).invocations = [(0, 10)] ∧
    (runThrottle 100
        [(⟨0, false, .mk 10 [] false⟩ : ThrottleCall Nat),
         ⟨100, false, .mk 11 [] false⟩]).invocations = [(0, 10), (100, 11)] := by
  decide

/-! ## ProjectModal: closing -/

/-- C12: whatever the page state before (modal visible or hidden, body
overflow `hidden` or cleared, menu open or closed), after `closeModal` the
modal's display is `none` and the body overflow is the empty string. -/
theorem closeModal_hides_and_unlocks (s : Page) :
    (closeModal s).modalDisplay = "none" ∧ (closeModal s).bodyOverflow = "" :=
  ⟨rfl, rfl⟩

/-! ## Notifications: when the element leaves the document -/

theorem nextDue_some {now : Nat} {ts : List Timer} {u : Timer}
    (h : nextDue now ts = some u) : u ∈ ts ∧ u.due ≤ now := by
  induction ts generalizing u with
  | nil => simp [nextDue] at h
  | cons t ts ih =>
    unfold nextDue at h
    cases hr : nextDue now ts with
    | none =>
      rw [hr] at h
      by_cases ht : t.due ≤ now
      · simp [ht] at h
        subst h
        exact ⟨by simp, ht⟩
      · simp [ht] at h
    | some v =>
      rw [hr] at h
      obtain ⟨hv, hvd⟩ := ih hr
      by_cases ht : t.due ≤ v.due
      · simp [ht] at h
        subst h
        exact ⟨by simp, le_trans ht hvd⟩
      · simp [ht] at h
        subst h
        exact ⟨by simp [hv], hvd⟩

theorem nextDue_none {now : Nat} {ts : List Timer}
    (h : nextDue now ts = none) : ∀ t ∈ ts, now < t.due := by
  induction ts with
  | nil => simp
  | cons t ts ih =>
    unfold nextDue at h
    cases hr : nextDue now ts with
    | none =>
      rw [hr] at h
      by_cases ht : t.due ≤ now
      · simp [ht] at h
      · intro x hx
        simp only [List.mem_cons] at hx
        rcases hx with hx | hx
        · subst hx
          omega
        · exact ih hr x hx
    | some v =>
      rw [hr] at h
      by_cases ht : t.due ≤ v.due <;> simp [ht] at h

theorem Timer.weight_pos (t : Timer) : 1 ≤ t.weight := by
  unfold Timer.weight
  split <;> omega

theorem timersWeight_erase {t : Timer} {ts : List Timer} (h : t ∈ ts) :
    t.weight + timersWeight (ts.erase t) = timersWeight ts := by
  induction ts with
  | nil => simp at h
  | cons x xs ih =>
    by_cases hx : x = t
    · subst hx
      simp [timersWeight]
    · have ht : t ∈ xs := by
        rcases List.mem_cons.mp h with h' | h'
        · exact absurd h'.symm hx
        · exact h'
      have := ih ht
      rw [List.erase_cons_tail (by simpa using hx)]
      simp only [timersWeight, List.map_cons, List.sum_cons] at this ⊢
      omega

/-- Firing a pending timer lowers the number of callbacks still to run. -/
theorem fire_weight (t : Timer) (n : Notification) (h : t ∈ n.timers) :
    timersWeight (t.fire { n with timers := n.timers.erase t }).timers + 1
      ≤ timersWeight n.timers := by
  have he := timersWeight_erase h
  unfold Timer.fire
  cases ha : t.action with
  | animateIn =>
    have hw : t.weight = 1 := by simp [Timer.weight, ha]
    simp only
    omega
  | autoRemove =>
    have hw : t.weight = 2 := by simp [Timer.weight, ha]
    rw [hw] at he
    have hd : (⟨t.due + 300, .detach⟩ : Timer).weight = 1 := rfl
    simp only [removeNotification, timersWeight, List.map_append, List.sum_append,
      List.map_cons, List.map_nil, List.sum_cons, List.sum_nil, hd] at he ⊢
    omega
  | detach =>
    have hw : t.weight = 1 := by simp [Timer.weight, ha]
    simp only
    split <;> simp only <;> omega

theorem Notification.Doomed.mono {D D2 : Nat} {n : Notification} (hD : D ≤ D2)
    (h : n.Doomed D) : n.Doomed D2 := by
  rcases h with h | ⟨t, ht, ha, hd⟩ | ⟨t, ht, ha, hd⟩
  · exact Or.inl h
  · exact Or.inr (Or.inl ⟨t, ht, ha, by omega⟩)
  · exact Or.inr (Or.inr ⟨t, ht, ha, by omega⟩)

/-- A timer callback never puts the element back and never drops a pending
timer. -/
theorem fire_keeps (t : Timer) (m : Notification) :
    (m.inDocument = false → (t.fire m).inDocument = false) ∧
    ∀ x ∈ m.timers, x ∈ (t.fire m).timers := by
  unfold Timer.fire
  cases t.action with
  | animateIn => exact ⟨fun h => h, fun x hx => hx⟩
  | autoRemove =>
    exact ⟨fun h => h, fun x hx => by simp [removeNotification, hx]⟩
  | detach =>
    by_cases hi : m.inDocument = true
    · simp [hi]
    · simp [hi]

/-- Firing any pending timer keeps a doomed notification doomed. -/
theorem fire_doomed (D : Nat) (t : Timer) (n : Notification)
    (h : n.Doomed D) :
    (t.fire { n with timers := n.timers.erase t }).Doomed D := by
  obtain ⟨hkeepDoc, hkeepT⟩ := fire_keeps t { n with timers := n.timers.erase t }
  rcases h with h | ⟨u, hu, ha, hd⟩ | ⟨u, hu, ha, hd⟩
  · exact Or.inl (hkeepDoc h)
  · by_cases hut : u = t
    · subst hut
      left
      unfold Timer.fire
      rw [ha]
      by_cases hi : n.inDocument = true
      · simp [hi]
      · simp only [hi, if_false]
        simp [hi]
    · exact Or.inr (Or.inl ⟨u, hkeepT u ((List.mem_erase_of_ne hut).mpr hu), ha, hd⟩)
  · by_cases hut : u = t
    · subst hut
      right
      left
      refine ⟨⟨u.due + 300, .detach⟩, ?_, rfl, hd⟩
      unfold Timer.fire
      rw [ha]
      simp [removeNotification]
    · exact Or.inr (Or.inr ⟨u, hkeepT u ((List.mem_erase_of_ne hut).mpr hu), ha, hd⟩)

/-- Moving the clock, to any time and with any bound on the callbacks run,
keeps a doomed notification doomed. -/
theorem fireDue_doomed (D now fuel : Nat) (n : Notification) (h : n.Doomed D) :
    (fireDue now fuel n).Doomed D := by
  induction fuel generalizing n with
  | zero => exact h
  | succ k ih =>
    unfold fireDue
    cases hn : nextDue now n.timers with
    | none => exact h
    | some t => exact ih _ (fire_doomed D t n h)

/-- Once the clock has moved to `now` with enough callbacks allowed, a
notification doomed by `now` is out of the document. -/
theorem fireDue_removes (now fuel : Nat) (n : Notification)
    (hw : timersWeight n.timers ≤ fuel) (h : n.Doomed now) :
    (fireDue now fuel n).inDocument = false := by
  induction fuel generalizing n with
  | zero =>
    have hnil : n.timers = [] := by
      cases hts : n.timers with
      | nil => rfl
      | cons t ts =>
        rw [hts] at hw
        have := t.weight_pos
        simp only [timersWeight, List.map_cons, List.sum_cons] at hw
        omega
    rcases h with h | ⟨t, ht, _, _⟩ | ⟨t, ht, _, _⟩
    · exact h
    · simp [hnil] at ht
    · simp [hnil] at ht
  | succ k ih =>
    unfold fireDue
    cases hn : nextDue now n.timers with
    | none =>
      have hlate := nextDue_none hn
      rcases h with h | ⟨t, ht, _, hd⟩ | ⟨t, ht, _, hd⟩
      · exact h
      · have := hlate t ht
        omega
      · have := hlate t ht
        omega
    | some t =>
      have hmem := (nextDue_some hn).1
      have hfw := fire_weight t n hmem
      exact ih _ (by omega) (fire_doomed now t n h)

/-- The bound `advanceTo` allows is enough: no timer due by `now` is left
pending. -/
theorem fireDue_settled (now fuel : Nat) (n : Notification)
    (hw : timersWeight n.timers ≤ fuel) :
    ∀ t ∈ (fireDue now fuel n).timers, now < t.due := by
  induction fuel generalizing n with
  | zero =>
    cases hts : n.timers with
    | nil => simp [fireDue, hts]
    | cons t ts =>
      rw [hts] at hw
      have := t.weight_pos
      simp only [timersWeight, List.map_cons, List.sum_cons] at hw
      omega
  | succ k ih =>
    unfold fireDue
    cases hn : nextDue now n.timers with
    | none => exact nextDue_none hn
    | some t =>
      have hfw := fire_weight t n (nextDue_some hn).1
      exact ih _ (by omega)

/-- After `advanceTo now` every timer still pending is due after `now`. -/
theorem advanceTo_settled (now : Nat) (n : Notification) :
    ∀ t ∈ (advanceTo now n).timers, now < t.due :=
  fireDue_settled now _ n (le_refl _)

theorem removeNotification_doomed (D now : Nat) (n : Notification) (h : n.Doomed D) :
    (removeNotification now n).Doomed D := by
  rcases h with h | ⟨t, ht, ha, hd⟩ | ⟨t, ht, ha, hd⟩
  · exact Or.inl h
  · exact Or.inr (Or.inl ⟨t, by simp [removeNotification, ht], ha, hd⟩)
  · exact Or.inr (Or.inr ⟨t, by simp [removeNotification, ht], ha, hd⟩)

/-- A click dooms the notification 300 ms later and keeps it doomed by any
time it was doomed by before. -/
theorem clickClose_doomed (D tc : Nat) (n : Notification)
    (h : n.Doomed D ∨ tc + 300 ≤ D) : (clickClose n tc).Doomed D := by
  unfold clickClose
  rcases h with h | h
  · exact removeNotification_doomed D tc _ (fireDue_doomed D tc _ n h)
  · exact Or.inr (Or.inl ⟨⟨tc + 300, .detach⟩, by simp [removeNotification], rfl, h⟩)

theorem foldl_clickClose_doomed (D : Nat) (clicks : List Nat) (n : Notification)
    (h : n.Doomed D ∨ ∃ tc ∈ clicks, tc + 300 ≤ D) :
    (clicks.foldl clickClose n).Doomed D := by
  induction clicks generalizing n with
  | nil =>
    rcases h with h | ⟨tc, htc, _⟩
    · exact h
    · simp at htc
  | cons c cs ih =>
    rw [List.foldl_cons]
    apply ih
    rcases h with h | ⟨tc, htc, hd⟩
    · exact Or.inl (clickClose_doomed D c n (Or.inl h))
    · rcases List.mem_cons.mp htc with hc | hc
      · subst hc
        exact Or.inl (clickClose_doomed D tc n (Or.inr hd))
      · exact Or.inr ⟨tc, hc, hd⟩

/-- C13: a notification created at `t0`, with its close control clicked at
the times `clicks` (none when it is never clicked). At every time `T` from
`t0 + 5300` on, and at every time `T` from 300 ms after a click on, the
element is not in the document; timers that fire for the element after it
was removed, the auto-dismiss ones included, run their guarded callback and
leave it removed. -/
theorem notification_removed (t0 : Nat) (message type : String) (clicks : List Nat)
    (T : Nat) (h : t0 + 5300 ≤ T ∨ ∃ tc ∈ clicks, tc + 300 ≤ T) :
    (notificationAt t0 message type clicks T).inDocument = false := by
  unfold notificationAt advanceTo
  apply fireDue_removes T _ _ (le_refl _)
  apply foldl_clickClose_doomed
  rcases h with h | h
  · exact Or.inl (Or.inr (Or.inr ⟨⟨t0 + 5000, .autoRemove⟩,
      by simp [showNotification], rfl, by simpa using h⟩))
  · exact Or.inr h

/-- Witness of C13: created at 1000 and never clicked, the element is gone at
6300; and it was still in the document 1 ms earlier. -/
theorem notification_removed_witness :
    (1000 + 5300 ≤ 6300 ∨ ∃ tc ∈ ([] : List Nat), tc + 300 ≤ 6300) ∧
    (notificationAt 1000 "Mensagem enviada com sucesso!" "success" [] 6300).inDocument
      = false ∧
    (notificationAt 1000 "Mensagem enviada com sucesso!" "success" [] 6299).inDocument
      = true :=
  ⟨by decide,
   notification_removed 1000 "Mensagem enviada com sucesso!" "success" [] 6300
     (by decide),
   by decide⟩

/-- A click at 2000 removes the element by 2300, not before, and the
auto-dismiss timers firing later leave it removed. -/
theorem notification_click_example :
    (notificationAt 1000 "Erro ao enviar mensagem." "error" [2000] 2299).inDocument = true ∧
    (notificationAt 1000 "Erro ao enviar mensagem." "error" [2000] 2300).inDocument = false ∧
    (notificationAt 1000 "Erro ao enviar mensagem." "error" [2000] 7000).inDocument = false ∧
    (notificationAt 1000 "Erro ao enviar mensagem." "error" [2000] 7000).timers = [] := by
  decide

end Portfolio
